import Mathlib

/-!
Formal model of the GulfTalent job scraper (an Apify/Crawlee actor).

The repository contains several near-duplicate variants of the same crawler:
three concatenated in `src/src/main.js` (called V1, V2, V3 below, in file
order) and four more across `src/unnamed/part_000` (called P0) and
`src/unnamed/part_001` (P1a, P1b, P1c).  The definitions below are shallow
embeddings of the concrete functions and handler blocks of those variants;
each definition's doc comment names the variant and line range it was
translated from.  Cheerio / DOM / URL / Date operations are external
collaborators: a fetched page is modelled as a structure whose fields are
exactly the query results the scraper code reads from it.
-/

namespace GT

/-! ## JavaScript string helpers -/

/-- JS truthiness of an optional string: `undefined`, `null` and `""` are falsy. -/
def jsTruthyS : Option String → Bool
  | none => false
  | some s => s ≠ ""

/-- JS `a || d` for an optional string `a` and a string default `d`. -/
def jsOr (o : Option String) (d : String) : String :=
  match o with
  | none => d
  | some s => if s = "" then d else s

/-- JS `a || null` for an optional string: empty strings collapse to `null`. -/
def jsOrNull (o : Option String) : Option String :=
  match o with
  | none => none
  | some s => if s = "" then none else some s

/-- JS `a || b` between two optional strings (`job.link || job.url`). -/
def jsSel (a b : Option String) : Option String :=
  match a with
  | none => b
  | some s => if s = "" then b else some s

/-- Is `pat` a prefix of `l`? -/
def isPrefixChars : List Char → List Char → Bool
  | [], _ => true
  | _ :: _, [] => false
  | p :: ps, c :: cs => p = c && isPrefixChars ps cs

/-- Does `l` contain `pat` as a contiguous run?  (JS `String.prototype.includes`.) -/
def hasInfix (pat : List Char) : List Char → Bool
  | [] => pat.isEmpty
  | c :: cs => isPrefixChars pat (c :: cs) || hasInfix pat cs

/-- JS `s.includes(pat)`. -/
def strContains (s pat : String) : Bool :=
  hasInfix pat.data s.data

/-- Kernel-computable `startsWith` (the built-in uses byte-position loops the
kernel cannot unfold). -/
def strStartsWith (s pat : String) : Bool :=
  isPrefixChars pat.data s.data

/-- Kernel-computable prefix of the first `n` characters, JS `substring(0, n)`. -/
def strTake (s : String) (n : Nat) : String :=
  String.mk (s.data.take n)

/-- Kernel-computable `toLowerCase`. -/
def strToLower (s : String) : String :=
  String.mk (s.data.map Char.toLower)

/-- Kernel-computable `trim`: drop whitespace from both ends (JS trims the
same class up to Unicode details). -/
def jsTrim (s : String) : String :=
  String.mk (((s.data.dropWhile Char.isWhitespace).reverse.dropWhile Char.isWhitespace).reverse)

/-- If `pat` is a prefix of `l`, return the remainder of `l` after it. -/
def stripAfterTok : List Char → List Char → Option (List Char)
  | [], l => some l
  | _ :: _, [] => none
  | p :: ps, c :: cs => if p = c then stripAfterTok ps cs else none

/-- The remainders of `l` after each occurrence of `pat`, leftmost occurrence first. -/
def suffixesAfterTok (pat : List Char) : List Char → List (List Char)
  | [] => []
  | c :: cs =>
    match stripAfterTok pat (c :: cs) with
    | some r => r :: suffixesAfterTok pat cs
    | none => suffixesAfterTok pat cs

/-! ## Job-id extraction

`extractJobId` appears identically in V1 (`main.js` 42-45), V2 (522-525),
V3 (821-824) and P0 (56-60):

    function extractJobId(url) {
        const match = url.match(/\/jobs\/[^\/]+-(\d+)/);
        return match ? match[1] : null;
    }

The regex engine scans left to right for an occurrence of `/jobs/`, then the
greedy `[^/]+` backtracks from the right, so the capture group is the maximal
digit run following the rightmost `-` (with at least one non-slash character
before it and at least one digit after it) inside the slash-free run that
follows `/jobs/`. -/

/-- Indices `i` inside `run` at which the backtracking `[^/]+-(\d+)` can place
the literal `-`: at least one character before it and a digit right after it. -/
def dashCandidates (run : List Char) : List Nat :=
  (List.range run.length).filter fun i =>
    decide (1 ≤ i) && (run.getD i ' ' == '-') && (run.getD (i + 1) ' ').isDigit

/-- The digit group captured from one slash-free run, if the run matches
`[^/]+-(\d+)` (greedy, hence the rightmost viable dash wins). -/
def jobIdFromRun (run : List Char) : Option String :=
  match (dashCandidates run).getLast? with
  | none => none
  | some i => some ⟨(run.drop (i + 1)).takeWhile Char.isDigit⟩

/-- `extractJobId` — the dedup key derived from a job URL. -/
def extractJobId (url : String) : Option String :=
  (suffixesAfterTok "/jobs/".data url.data).foldl
    (fun acc rest =>
      match acc with
      | some r => some r
      | none => jobIdFromRun (rest.takeWhile (· ≠ '/')))
    none

/-- Test of the anchored pattern `/\/jobs\/[^\/]+-\d+$/` used by the HTML
fallbacks of V1 (`main.js` 287) and P0 (190): after some occurrence of
`/jobs/` the rest of the string is slash-free and ends in `-` followed by at
least one digit, with at least one character before the `-`. -/
def jobDetailHref (href : String) : Bool :=
  (suffixesAfterTok "/jobs/".data href.data).any fun rest =>
    rest.all (· ≠ '/') &&
      (let rev := rest.reverse
       let ds := rev.takeWhile Char.isDigit
       !ds.isEmpty && (rev.getD ds.length ' ' == '-') && decide (ds.length + 1 < rest.length))

/-! ## URL normalization -/

/-- The site origin, `BASE_URL` in every variant. -/
def baseUrl : String := "https://www.gulftalent.com"

/-- `new URL(url, base).href` for a relative `url` against an origin base.
URL resolution itself is an external collaborator; for the origin base used
here a path-absolute input resolves to origin ++ path and other relative
inputs resolve against the root. -/
def resolveAgainst (base url : String) : String :=
  if strStartsWith url "/" then base ++ url else base ++ "/" ++ url

/-- `validateAndNormalizeUrl` — V1 (`main.js` 32-40), V2 (512-520), V3
(811-819), P0 (46-54).  Returns `null` for a falsy or non-string input,
otherwise resolves the URL against the base. -/
def validateAndNormalizeUrl (url : String) (base : String) : Option String :=
  if url = "" then none
  else if strStartsWith url "/" then some (base ++ url)
  else if strStartsWith url "http" then some url
  else some (resolveAgainst base url)

/-! ## Core data model -/

/-- A date value as it ends up in an output record.  `fromTs ts` stands for
`new Date(ts * 1000).toISOString()`; the Date conversion is an external
collaborator and only the provenance matters to the model. -/
inductive DateVal where
  | fromTs (ts : Nat)
  | str (s : String)
  deriving DecidableEq, Repr

/-- The `jobData` object assembled by the LIST accept loops. -/
structure Record where
  title : String
  company : String
  location : String
  date_posted : DateVal
  employment_type : Option String := none
  industry : Option String := none
  seniority : Option String := none
  url : Option String := none
  deriving DecidableEq, Repr

/-- What an accepted job turns into: a DETAIL request enqueued on the
frontier, or a record pushed directly to the dataset. -/
inductive EmKind where
  | detailRequest
  | record
  deriving DecidableEq, Repr

/-- One observable output of the accept loop.  `jobId` is the dedup key the
loop accepted the job under (carried explicitly for specification purposes;
in the source it is the id just added to `seenJobIds`). -/
structure Emission where
  kind : EmKind
  jobId : String
  data : Record
  deriving DecidableEq, Repr

/-- `CRAWLER_STATE` plus the in-memory `seenJobIds` set (a set of strings,
modelled as a list with membership). -/
structure CrawlState where
  pagesScraped : Nat := 0
  jobsScraped : Nat := 0
  seenJobIds : List String := []
  deriving DecidableEq, Repr

/-- The run configuration fields the handlers read. -/
structure Config where
  maxJobs : Option Nat := none
  maxPages : Option Nat := none
  collectDetails : Bool := true
  deriving DecidableEq, Repr

/-- JS guard `maxJobs && state.jobsScraped >= maxJobs`.  A limit of `0` is
falsy in JS, so it never fires. -/
def limitHit : Option Nat → Nat → Bool
  | none, _ => false
  | some k, v => k != 0 && decide (k ≤ v)

/-- JS guard `(!maxJobs || state.jobsScraped < maxJobs)` (and likewise for
`maxPages`).  A limit of `0` is falsy, so it always allows. -/
def limitAllows : Option Nat → Nat → Bool
  | none, _ => true
  | some k, v => k == 0 || decide (v < k)

/-! ## The V1 accept loop (`main.js` 344-375, PAGINATED_LIST)

    for (const job of processedJobs) {
        if (maxJobs && state.jobsScraped >= maxJobs) break;
        if (!job.id || seenJobIds.has(job.id)) continue;
        seenJobIds.add(job.id);
        const jobData = { title: job.title || 'Not specified', ... , url: job.link };
        if (collectDetails && job.link) { <enqueue DETAIL> } else { <push jobData> }
        state.jobsScraped++;
        processedThisPage++;
    }
-/

/-- A processed job as produced by V1 list extraction (either the embedded
JSON mapping or the HTML fallback). -/
structure Job where
  id : Option String := none
  title : Option String := none
  company_name : Option String := none
  location : Option String := none
  link : Option String := none
  posted_date : Option String := none
  employment_type : Option String := none
  industry : Option String := none
  seniority : Option String := none
  deriving DecidableEq, Repr

/-- The `jobData` record V1 builds for an accepted job (`main.js` 353-362). -/
def mkJobDataV1 (job : Job) : Record :=
  { title := jsOr job.title "Not specified"
    company := jsOr job.company_name "Not specified"
    location := jsOr job.location "Not specified"
    date_posted := .str (jsOr job.posted_date "Not specified")
    employment_type := jsOrNull job.employment_type
    industry := jsOrNull job.industry
    seniority := jsOrNull job.seniority
    url := job.link }

/-- The body of the V1 accept loop for a single job, without the `maxJobs`
break (which lives in the loop, see `processJobs1`).  In the source the
`seenJobIds.add` happens before the emission and `state.jobsScraped++` after
it; the net state update is the same. -/
def acceptJob (cfg : Config) (s : CrawlState) (job : Job) : CrawlState × List Emission :=
  match job.id with
  | none => (s, [])
  | some id =>
    if id = "" ∨ id ∈ s.seenJobIds then (s, [])
    else
      let jobData := mkJobDataV1 job
      let em : Emission :=
        if cfg.collectDetails && jsTruthyS job.link then ⟨.detailRequest, id, jobData⟩
        else ⟨.record, id, jobData⟩
      ({ s with seenJobIds := id :: s.seenJobIds, jobsScraped := s.jobsScraped + 1 }, [em])

/-- The V1 accept loop over a page's jobs.  The `maxJobs` break is modelled by
skipping every remaining job once the limit is hit, which has the same state
and emissions as `break`. -/
def processJobs1 (cfg : Config) (s : CrawlState) : List Job → CrawlState × List Emission
  | [] => (s, [])
  | j :: rest =>
    if limitHit cfg.maxJobs s.jobsScraped then (s, [])
    else
      let step := acceptJob cfg s j
      let tail := processJobs1 cfg step.1 rest
      (tail.1, step.2 ++ tail.2)

/-! ## The P0 accept loop (`part_000` 239-277, LIST)

    for (const job of jobs) {
        if (maxJobs && state.jobsScraped >= maxJobs) { return; }
        const jobId = extractJobId(job.link);
        if (!jobId || seenJobIds.has(jobId)) continue;
        seenJobIds.add(jobId);
        const jobUrl = validateAndNormalizeUrl(job.link, BASE_URL);
        if (!jobUrl) continue;
        const jobData = { ... };
        if (collectDetails) { <enqueue DETAIL> } else { <push jobData + null descriptions> }
        state.jobsScraped++;
        addedThisPage++;
    }
-/

/-- A job row as consumed by the P0 accept loop (raw JSON row fields or the
HTML-fallback synthesised row).  `link` is a string in every reachable row; a
row without a link would make `extractJobId` throw a TypeError in the source. -/
structure Job0 where
  link : String
  title : Option String := none
  company_name : Option String := none
  location : Option String := none
  posted_date_ts : Option Nat := none
  deriving DecidableEq, Repr

/-- The `jobData` record P0 builds for an accepted job (`part_000` 254-260). -/
def mkJobData0 (job : Job0) (jobUrl : String) : Record :=
  { title := jsOr job.title "Not specified"
    company := jsOr job.company_name "Not specified"
    location := jsOr job.location "Not specified"
    date_posted :=
      match job.posted_date_ts with
      | some ts => .fromTs ts
      | none => .str "Not specified"
    url := some jobUrl }

/-- The body of the P0 accept loop for a single job (the `maxJobs` return is
in `processJobs0`).  Note the id is marked seen before the URL validity
check, exactly as in the source. -/
def acceptJob0 (cfg : Config) (s : CrawlState) (job : Job0) : CrawlState × List Emission :=
  match extractJobId job.link with
  | none => (s, [])
  | some id =>
    if id ∈ s.seenJobIds then (s, [])
    else
      let s1 := { s with seenJobIds := id :: s.seenJobIds }
      match validateAndNormalizeUrl job.link baseUrl with
      | none => (s1, [])
      | some jobUrl =>
        let jobData := mkJobData0 job jobUrl
        let em : Emission :=
          if cfg.collectDetails then ⟨.detailRequest, id, jobData⟩ else ⟨.record, id, jobData⟩
        ({ s1 with jobsScraped := s1.jobsScraped + 1 }, [em])

/-- The P0 accept loop.  The boolean result records whether the `maxJobs`
guard fired (`return` in the source, which also skips the pagination block of
the handler). -/
def processJobs0 (cfg : Config) (s : CrawlState) : List Job0 → CrawlState × List Emission × Bool
  | [] => (s, [], false)
  | j :: rest =>
    if limitHit cfg.maxJobs s.jobsScraped then (s, [], true)
    else
      let step := acceptJob0 cfg s j
      let tail := processJobs0 cfg step.1 rest
      (tail.1, step.2 ++ tail.2.1, tail.2.2)

/-! ## List-page documents and extraction strategies

A fetched list page is modelled as the collection of query results the
handlers read from it.  `embedded` is the outcome of locating the
`facetedSearchResultsValue` script, matching the object literal out of it and
parsing it: `none` covers a missing script, a failed regex match and a JSON
parse error alike (V1 catches the error and returns the empty result,
`main.js` 197-201; P0 logs and keeps `jobs = []`, `part_000` 178-180).
The `|| []` / `|| 0` / `|| 20` defaults applied to `results.data`,
`results.total` and `results.per_page` are folded into the payload fields. -/

/-- A raw job object from a JSON payload (embedded or AJAX).  All fields the
variants read are optional. -/
structure RawJob where
  id : Option Int := none
  title : Option String := none
  job_title : Option String := none
  companyName : Option String := none
  company_name : Option String := none
  employer_name : Option String := none
  location : Option String := none
  city : Option String := none
  url : Option String := none
  link : Option String := none
  posted_date : Option String := none
  posted_date_ts : Option Nat := none
  employment_type : Option String := none
  industry : Option String := none
  seniority : Option String := none
  deriving DecidableEq, Repr

/-- The parsed `facetedSearchResultsValue` object: `results.data`,
`results.total`, `results.per_page` (with the JS falsy defaults applied). -/
structure Payload where
  data : List RawJob := []
  total : Nat := 0
  perPage : Nat := 0
  deriving DecidableEq, Repr

/-- A job card matched by the card selectors of the V1 HTML fallback
(`main.js` 279, 310-337); fields are the query results the card loop reads. -/
structure Card where
  href : Option String := none
  linkText : String := ""
  cardTitle : String := ""
  cardCompany : String := ""
  cardLocation : String := ""
  deriving DecidableEq, Repr

/-- An anchor matched by `a[href*="/jobs/"]` plus the texts read from its
closest container. -/
structure Anchor where
  href : String
  text : String := ""
  containerTitle : String := ""
  containerCompany : String := ""
  containerLocation : String := ""
  deriving DecidableEq, Repr

/-- The JSON body of an AJAX response as V2 reads it (`main.js` 621-641):
`results.data` shape, flat `data` shape, or anything else. -/
inductive AjaxJson where
  | resultsShape (data : List RawJob) (total : Nat)
  | dataShape (data : List RawJob) (total : Nat)
  | other
  deriving DecidableEq, Repr

/-- A fetched list-page document, as the collection of DOM/body query results
the LIST handlers read. -/
structure Doc where
  title : String := ""
  bodyText : String := ""
  embedded : Option Payload := none
  ajaxJson : Option AjaxJson := none
  jobCards : List Card := []
  anchors : List Anchor := []
  deriving Repr

/-- V1 `extractJobsFromEmbeddedJSON` (`main.js` 156-202): map the payload
rows to processed jobs; on any failure return no jobs, total 0, per-page 20.
Per the source, `job.id?.toString()`, `job.company?.name || 'Not specified'`,
`job.location || 'Not specified'`, ``link: `${BASE_URL}${job.url}` `` (an
absent `job.url` would stringify as "undefined"). -/
def normalizeV1 (r : RawJob) : Job :=
  { id := r.id.map (fun n => toString n)
    title := r.title
    company_name := some (jsOr r.companyName "Not specified")
    location := some (jsOr r.location "Not specified")
    link := some (baseUrl ++ (match r.url with | some u => u | none => "undefined"))
    posted_date := r.posted_date
    employment_type := r.employment_type
    industry := r.industry
    seniority := r.seniority }

/-- V1 `extractJobsFromEmbeddedJSON` result: `(jobs, totalJobs, perPage)`. -/
def extractJobsFromEmbeddedJSON (doc : Doc) : List Job × Nat × Nat :=
  match doc.embedded with
  | none => ([], 0, 20)
  | some p => (p.data.map normalizeV1, p.total, if p.perPage = 0 then 20 else p.perPage)

/-- The V1 anchor fallback (`main.js` 283-309): anchors whose href matches
the anchored job pattern, not yet globally seen, with the title heuristic
(link text, else container heading, discard when shorter than 3 chars). -/
def anchorJobsV1 (seen : List String) : List Anchor → List Job
  | [] => []
  | a :: rest =>
    let tail := anchorJobsV1 seen rest
    if jobDetailHref a.href then
      match extractJobId a.href with
      | none => tail
      | some id =>
        if id ∈ seen then tail
        else
          let t0 := jsTrim a.text
          let title := if t0 = "" ∨ t0.length < 3 then jsTrim a.containerTitle else t0
          if title = "" ∨ title.length < 3 then tail
          else
            match validateAndNormalizeUrl a.href baseUrl with
            | none => tail
            | some fullUrl =>
              { id := some id
                title := some title
                company_name := some (jsOr (some a.containerCompany) "Not specified")
                location := some (jsOr (some a.containerLocation) "Not specified")
                link := some fullUrl } :: tail
    else tail

/-- The V1 card fallback (`main.js` 310-337). -/
def cardJobsV1 (seen : List String) : List Card → List Job
  | [] => []
  | c :: rest =>
    let tail := cardJobsV1 seen rest
    match c.href with
    | none => tail
    | some href =>
      match extractJobId href with
      | none => tail
      | some id =>
        if id ∈ seen then tail
        else
          let title := jsOr (some (jsTrim c.linkText)) (jsTrim c.cardTitle)
          if title = "" ∨ title.length < 3 then tail
          else
            match validateAndNormalizeUrl href baseUrl with
            | none => tail
            | some fullUrl =>
              { id := some id
                title := some title
                company_name := some (jsOr (some c.cardCompany) "Not specified")
                location := some (jsOr (some c.cardLocation) "Not specified")
                link := some fullUrl } :: tail

/-- V1 HTML fallback (`main.js` 275-340): if no job cards match, scan the
anchors; otherwise parse the cards. -/
def htmlFallbackV1 (doc : Doc) (seen : List String) : List Job :=
  if doc.jobCards = [] then anchorJobsV1 seen doc.anchors else cardJobsV1 seen doc.jobCards

/-- V1 list extraction (`main.js` 270-340): the embedded-JSON strategy first;
the HTML fallback is consulted only when it produced zero jobs.  The
total/per-page counts of the JSON attempt are kept either way. -/
def extractListV1 (doc : Doc) (seen : List String) : List Job × Nat × Nat :=
  let e := extractJobsFromEmbeddedJSON doc
  if e.1.length = 0 then (htmlFallbackV1 doc seen, e.2.1, e.2.2) else e

/-- The P0 anchor filter (`part_000` 188-192): anchored job pattern and not a
`/search` or `/category` path. -/
def anchorFilter0 (a : Anchor) : Bool :=
  jobDetailHref a.href && !strContains a.href "/search" && !strContains a.href "/category"

/-- The P0 anchor fallback (`part_000` 207-233), with its within-page
`processedIds` set (the accumulator): the id joins `processedIds` right after
the dedup check, before the title heuristic can still drop the row. -/
def anchorJobs0 (seen : List String) : List Anchor → List String → List Job0
  | [], _ => []
  | a :: rest, processed =>
    match extractJobId a.href with
    | none => anchorJobs0 seen rest processed
    | some id =>
      if id ∈ seen ∨ id ∈ processed then anchorJobs0 seen rest processed
      else
        let processed1 := id :: processed
        let t0 := jsTrim a.text
        let title := if t0 = "" ∨ t0.length < 3 then jsTrim a.containerTitle else t0
        if title = "" ∨ title.length < 3 then anchorJobs0 seen rest processed1
        else
          match validateAndNormalizeUrl a.href baseUrl with
          | none => anchorJobs0 seen rest processed1
          | some fullUrl =>
            { link := fullUrl
              title := some title
              company_name := some (jsOr (some a.containerCompany) "Not specified")
              location := some (jsOr (some a.containerLocation) "Not specified")
              posted_date_ts := none } :: anchorJobs0 seen rest processed1

/-- A raw JSON row as consumed directly by the P0 accept loop
(`part_000` 174-175 uses `searchResults.results?.data` rows as-is). -/
def rawToJob0 (r : RawJob) : Job0 :=
  { link := match r.link with | some l => l | none => "undefined"
    title := r.title
    company_name := r.company_name
    location := r.location
    posted_date_ts := r.posted_date_ts }

/-- P0 list extraction (`part_000` 166-236): embedded JSON first, HTML anchor
fallback only when it yielded zero jobs.  Returns `(jobs, totalAvailable)`. -/
def extractList0 (doc : Doc) (seen : List String) : List Job0 × Nat :=
  let jobs := match doc.embedded with
    | some p => p.data.map rawToJob0
    | none => []
  let total := match doc.embedded with
    | some p => p.total
    | none => 0
  if jobs.length = 0 then (anchorJobs0 seen (doc.anchors.filter anchorFilter0) [], total)
  else (jobs, total)

/-! ## Blocking detection -/

/-- `isBlocked` as it appears in V2 (`main.js` 527-533) and P0
(`part_000` 62-68):

    const title = $('title').text().toLowerCase();
    const bodyStart = $('body').text().substring(0, 300).toLowerCase();
    return ['access denied', 'captcha', 'cloudflare', 'blocked'].some(indicator =>
        title.includes(indicator) || bodyStart.includes(indicator));

A pure predicate of the document. -/
def isBlocked (doc : Doc) : Bool :=
  let title := strToLower doc.title
  let bodyStart := strToLower (strTake doc.bodyText 300)
  ["access denied", "captcha", "cloudflare", "blocked"].any fun indicator =>
    strContains title indicator || strContains bodyStart indicator

/-- `isBlocked` of the P1c variant (`part_001` 611-628): a 500-character body
window and a longer indicator list that also contains `"not found"`. -/
def isBlockedP1c (doc : Doc) : Bool :=
  let title := strToLower doc.title
  let bodyStart := strToLower (strTake doc.bodyText 500)
  ["access denied", "captcha", "cloudflare", "security check", "blocked", "robot",
   "not found"].any fun indicator =>
    strContains title indicator || strContains bodyStart indicator

/-! ## LIST-page handlers -/

/-- The observable outcome of one LIST request-handler invocation: either the
handler threw (Crawlee then retries the request, up to `maxRequestRetries`),
or it completed with a new state, the emissions of its accept loop, and
whether it enqueued a successor LIST page. -/
inductive ListOutcome where
  | threw (msg : String)
  | done (s : CrawlState) (ems : List Emission) (enqueuedNext : Bool)
  deriving Repr

/-- V1 PAGINATED_LIST processing after the extraction step (`main.js`
263-409): bump `pagesScraped`, extract, run the accept loop, then decide
pagination:

    const totalPages = totalJobs > 0 ? Math.ceil(totalJobs / perPage) : 0;
    const hasMorePages = totalPages > pageNum;
    const shouldContinue =
        (processedThisPage > 0 || hasMorePages) &&
        (!maxJobs || state.jobsScraped < maxJobs) &&
        (!maxPages || state.pagesScraped < maxPages);
    <enqueue next page iff shouldContinue && hasMorePages>

`processedThisPage` equals the number of emissions of the accept loop.
V1 has no blocking gate on this label. -/
def processListV1 (cfg : Config) (pageNum : Nat) (s0 : CrawlState) (doc : Doc) :
    CrawlState × List Emission × Bool :=
  let s := { s0 with pagesScraped := s0.pagesScraped + 1 }
  let e := extractListV1 doc s.seenJobIds
  let step := processJobs1 cfg s e.1
  let totalJobs := e.2.1
  let perPage := e.2.2
  let totalPages := if totalJobs > 0 then (totalJobs + perPage - 1) / perPage else 0
  let hasMorePages := decide (pageNum < totalPages)
  let shouldContinue :=
    (decide (0 < step.2.length) || hasMorePages) &&
      limitAllows cfg.maxJobs step.1.jobsScraped &&
      limitAllows cfg.maxPages step.1.pagesScraped
  (step.1, step.2, shouldContinue && hasMorePages)

/-- The P0 LIST handler (`part_000` 144-322).  A blocked page throws
(`throw new Error('Blocked by website')`, lines 152-155) before any counter
update or extraction.  Otherwise: bump `pagesScraped`, extract (JSON first,
anchors as fallback), run the accept loop — whose `maxJobs` guard `return`s
past the pagination block — then

    const shouldContinue =
        addedThisPage > 0 &&
        (!maxJobs || state.jobsScraped < maxJobs) &&
        (!maxPages || state.pagesScraped < maxPages) &&
        (totalAvailable === 0 || state.jobsScraped < totalAvailable);

(The source's early `return` when the HTML fallback finds no links is
observably the `addedThisPage = 0` stop.) -/
def part000ProcessList (cfg : Config) (s0 : CrawlState) (doc : Doc) : ListOutcome :=
  if isBlocked doc then .threw "Blocked by website"
  else
    let s := { s0 with pagesScraped := s0.pagesScraped + 1 }
    let e := extractList0 doc s.seenJobIds
    let step := processJobs0 cfg s e.1
    let totalAvailable := e.2
    if step.2.2 then .done step.1 step.2.1 false
    else
      let cont :=
        decide (0 < step.2.1.length) &&
          limitAllows cfg.maxJobs step.1.jobsScraped &&
          limitAllows cfg.maxPages step.1.pagesScraped &&
          (totalAvailable == 0 || decide (step.1.jobsScraped < totalAvailable))
      .done step.1 step.2.1 cont

/-- The V2 accept loop (`main.js` 674-700) works straight off raw JSON rows:

    const jobLink = validateAndNormalizeUrl(job.link || job.url, BASE_URL);
    const jobId = extractJobId(jobLink);
    if (!jobId || seenJobIds.has(jobId)) continue; seenJobIds.add(jobId); ...

A row where `jobLink` comes out `null` would make `extractJobId` throw in the
source; such rows are unreachable for the anchor-derived rows (their hrefs
are non-empty) and are modelled as skipped. -/
def acceptJob2 (cfg : Config) (s : CrawlState) (r : RawJob) : CrawlState × List Emission :=
  match (jsSel r.link r.url).bind (validateAndNormalizeUrl · baseUrl) with
  | none => (s, [])
  | some jobLink =>
    match extractJobId jobLink with
    | none => (s, [])
    | some id =>
      if id ∈ s.seenJobIds then (s, [])
      else
        let jobData : Record :=
          { title := jsOr (jsSel r.title r.job_title) "Not specified"
            company := jsOr (jsSel r.company_name r.employer_name) "Not specified"
            location := jsOr (jsSel r.location r.city) "Not specified"
            date_posted :=
              match r.posted_date_ts with
              | some ts => .fromTs ts
              | none => .str (jsOr r.posted_date "Not specified")
            url := some jobLink }
        let em : Emission :=
          if cfg.collectDetails then ⟨.detailRequest, id, jobData⟩ else ⟨.record, id, jobData⟩
        ({ s with seenJobIds := id :: s.seenJobIds, jobsScraped := s.jobsScraped + 1 }, [em])

/-- The V2 accept loop over a page (break modelled as skipping the rest). -/
def processJobs2 (cfg : Config) (s : CrawlState) : List RawJob → CrawlState × List Emission
  | [] => (s, [])
  | r :: rest =>
    if limitHit cfg.maxJobs s.jobsScraped then (s, [])
    else
      let step := acceptJob2 cfg s r
      let tail := processJobs2 cfg step.1 rest
      (tail.1, step.2 ++ tail.2)

/-- V2 jobs from an AJAX JSON body (`main.js` 617-643). -/
def ajaxJobs (doc : Doc) : List RawJob × Nat :=
  match doc.ajaxJson with
  | none => ([], 0)
  | some (.resultsShape data total) => (data, total)
  | some (.dataShape data total) => (data, total)
  | some .other => ([], 0)

/-- V2 extraction for a non-AJAX URL (`main.js` 645-669): embedded JSON from
the HTML, then the plain anchor scan (no anchored-pattern filter here; every
anchor with a derivable unseen id yields a `{ link }` row). -/
def v2HtmlJobs (doc : Doc) (seen : List String) : List RawJob × Nat :=
  let fromEmbedded : List RawJob × Nat :=
    match doc.embedded with
    | some p => (p.data, p.total)
    | none => ([], 0)
  if fromEmbedded.1.length = 0 then
    let rows := doc.anchors.foldr
      (fun a acc =>
        match validateAndNormalizeUrl a.href baseUrl with
        | none => acc
        | some full =>
          match extractJobId full with
          | none => acc
          | some id => if id ∈ seen then acc else ({ link := some full } : RawJob) :: acc)
      []
    (rows, fromEmbedded.2)
  else fromEmbedded

/-- The V2 LIST handler (`main.js` 599-724).  A blocked page logs and
`return`s (lines 606-609) before `pagesScraped++` and before any extraction:
the request completes normally and is not retried.  Otherwise extraction and
the accept loop run, and pagination is decided by

    const hasMoreByCount = (totalAvailable > 0)
        ? (state.jobsScraped < totalAvailable) : (addedThisPage > 0);
    const canContinueByPageLimit = (!maxPages || pageNum < maxPages);
    if (hasMoreByCount && canContinueByPageLimit && addedThisPage > 0) <enqueue>
-/
def mainV2List (cfg : Config) (pageNum : Nat) (isAjaxUrl : Bool) (s0 : CrawlState)
    (doc : Doc) : ListOutcome :=
  if isBlocked doc then .done s0 [] false
  else
    let s := { s0 with pagesScraped := s0.pagesScraped + 1 }
    let e := if isAjaxUrl then ajaxJobs doc else v2HtmlJobs doc s.seenJobIds
    let step := processJobs2 cfg s e.1
    let totalAvailable := e.2
    let hasMoreByCount :=
      if totalAvailable > 0 then decide (step.1.jobsScraped < totalAvailable)
      else decide (0 < step.2.length)
    let canContinueByPageLimit := limitAllows cfg.maxPages pageNum
    .done step.1 step.2 (hasMoreByCount && canContinueByPageLimit && decide (0 < step.2.length))

/-! ## The crawl loop

The frontier is driven page by page: each LIST handler decides whether the
successor page is enqueued, so a run is the iteration of `processListV1`
while the handler keeps enqueuing.  `oracle` supplies the document of each
page number (the site, an external collaborator); `fuel` bounds the modelled
iteration and is irrelevant to the page bound proved about it.  The second
component counts the LIST requests processed. -/
def crawlLoopV1 (cfg : Config) (oracle : Nat → Doc) :
    Nat → Nat → CrawlState → CrawlState × Nat
  | 0, _, s => (s, 0)
  | fuel + 1, pageNum, s =>
    let step := processListV1 cfg pageNum s (oracle pageNum)
    if step.2.2 then
      let rest := crawlLoopV1 cfg oracle fuel (pageNum + 1) step.1
      (rest.1, rest.2 + 1)
    else (step.1, 1)

/-! ## Next-page URL construction

A URL is modelled as its path plus its ordered query-parameter list (values
held decoded; `encodeURIComponent` and its inverse are the URL collaborator
and are bijective on values). -/

/-- Path and ordered query parameters of a URL on the site origin. -/
structure Url where
  path : String
  params : List (String × String) := []
  deriving DecidableEq, Repr

/-- `URLSearchParams.set(k, v)`: the first pair with key `k` is overwritten
in place and any further pairs with that key are dropped; if no pair has key
`k`, the pair is appended. -/
def setParam : List (String × String) → String → String → List (String × String)
  | [], k, v => [(k, v)]
  | (k1, v1) :: rest, k, v =>
    if k1 = k then (k, v) :: rest.filter (fun p => p.1 ≠ k)
    else (k1, v1) :: setParam rest k v

/-- `URLSearchParams.get(k)`: the value of the first pair with key `k`. -/
def lookupParam (ps : List (String × String)) (k : String) : Option String :=
  (ps.find? (fun p => p.1 = k)).map (·.2)

/-- Drop every pair with key `k` (used to compare URLs up to their `page`). -/
def dropParam (ps : List (String × String)) (k : String) : List (String × String) :=
  ps.filter (fun p => p.1 ≠ k)

/-- The search configuration V1 rebuilds request URLs from.  The `|| ''`
defaults of `buildApiRequestUrl` are folded into the field defaults. -/
structure SearchConfig where
  search_keyword : String := ""
  city : String := ""
  country : String := ""
  category : String := ""
  employment_type : String := ""
  industry : String := ""
  seniority : String := ""
  has_external_application : String := ""
  posted_date : Option Nat := none
  deriving DecidableEq, Repr

/-- V1 `buildApiRequestUrl` (`main.js` 129-153): a fixed ordered parameter
set from the search configuration plus the page number, with empty values
filtered out, on the `/jobs/search` path. -/
def buildApiRequestUrl (cfg : SearchConfig) (page : Nat) : Url :=
  let baseParams : List (String × String) :=
    [("search_keyword", cfg.search_keyword), ("city", cfg.city), ("country", cfg.country),
     ("category", cfg.category), ("employment_type", cfg.employment_type),
     ("industry", cfg.industry), ("seniority", cfg.seniority),
     ("has_external_application", cfg.has_external_application),
     ("page", toString page)] ++
      (match cfg.posted_date with
       | some d => [("filters[posted_date]", toString d)]
       | none => [])
  { path := "/jobs/search", params := baseParams.filter (fun p => p.2 ≠ "") }

/-- The V2 next-page URL (`main.js` 705-717): take the current URL's query
parameters, overwrite `page`, and rebuild the URL on the literal
`/ajax/jobs/search` path:

    const urlObj = new URL(request.url);
    const params = urlObj.searchParams;
    params.set('page', nextPage.toString());
    const nextUrl = `${BASE_URL}/ajax/jobs/search?${params.toString()}`;
-/
def nextUrlV2 (current : Url) (nextPage : Nat) : Url :=
  { path := "/ajax/jobs/search", params := setParam current.params "page" (toString nextPage) }

/-! ## Input validation (`main.js` 500-501, `part_001` 572-578)

    if (maxJobs && maxJobs < 1) throw new Error('maxJobs must be >= 1');
    if (maxPages && maxPages < 1) throw new Error('maxPages must be >= 1');

`maxJobs` is a JS number: `0` is falsy, so a limit of `0` passes validation
(and is then treated as "no limit" by every `maxJobs && ...` guard). -/

/-- JS truthiness of an optional numeric input. -/
def jsTruthyI : Option Int → Bool
  | none => false
  | some n => n != 0

/-- The validation block, run at startup before the crawler is constructed. -/
def validateInput (maxJobs maxPages : Option Int) : Except String Unit :=
  if jsTruthyI maxJobs && decide ((maxJobs.getD 0) < 1) then .error "maxJobs must be >= 1"
  else if jsTruthyI maxPages && decide ((maxPages.getD 0) < 1) then .error "maxPages must be >= 1"
  else .ok ()

/-- The top of the actor run: validation happens before the crawler is built
or started, so a validation error yields no crawl at all (no LIST request is
ever issued; the error result carries no processed-page count). -/
def runActor (maxJobs maxPages : Option Int) (oracle : Nat → Doc) (fuel : Nat) :
    Except String (CrawlState × Nat) :=
  match validateInput maxJobs maxPages with
  | .error e => .error e
  | .ok _ =>
    .ok (crawlLoopV1
      { maxJobs := maxJobs.map Int.toNat, maxPages := maxPages.map Int.toNat,
        collectDetails := true }
      oracle fuel 1 {})

/-! ## Detail pages -/

/-- The description container selected by
`$('.job-details, .job-description, [class*="job-content"]').first()`, after
the noise-removal passes (ribbons, apply buttons, everything after the
"About the Company" heading) — DOM surgery on the clone is the cheerio
collaborator; the fields are what the variants read from the cleaned clone.
`innerHtml` is `none` when cheerio's `.html()` returns `null`. -/
structure Container where
  paragraphs : List (String × String) := []
  innerText : String := ""
  innerHtml : Option String := none
  deriving Repr

/-- A fetched detail-page document: the (possibly absent) description
container and the raw trimmed text the metadata label lookup yields for each
label (`""` when the label is absent — cheerio's `.text()` of an empty
selection). -/
structure DetailDoc where
  container : Option Container := none
  metaRaw : String → String := fun _ => ""

/-- Whitespace collapse `.replace(/\s+/g, ' ')` over the characters (the JS
`\s` class is approximated by `Char.isWhitespace`). -/
def collapseWsAux : List Char → Bool → List Char
  | [], _ => []
  | c :: rest, prevWs =>
    if c.isWhitespace then
      if prevWs then collapseWsAux rest true else ' ' :: collapseWsAux rest true
    else c :: collapseWsAux rest false

/-- `.replace(/\s+/g, ' ').trim()` — the `\n`-collapsing second replace of the
source is a no-op after the first pass removed every newline. -/
def collapseWs (s : String) : String :=
  jsTrim (String.mk (collapseWsAux s.data false))

/-- `.replace(/>\s+</g, '><')`: drop whitespace runs between a closing `>`
and the next `<`. -/
def compactHtmlAux : List Char → List Char
  | [] => []
  | c :: rest =>
    if c = '>' then
      let ws := rest.takeWhile Char.isWhitespace
      let after := rest.drop ws.length
      match after with
      | '<' :: _ => '>' :: compactHtmlAux after
      | _ => '>' :: (ws ++ compactHtmlAux after)
    else c :: compactHtmlAux rest
  termination_by l => l.length
  decreasing_by
    all_goals simp_all [List.length_drop]
    all_goals omega

/-- `.replace(/>\s+</g, '><').trim()`. -/
def compactHtml (s : String) : String :=
  jsTrim (String.mk (compactHtmlAux s.data))

/-- The agency-boilerplate phrases filtered out paragraph by paragraph in V1
(`main.js` 63). -/
def companyKeywords : List String :=
  ["Linum Consult", "All Linum Consultants", "recruitment agency"]

/-- V1 `cleanDescription` (`main.js` 47-82).  Collect the paragraphs whose
trimmed text is non-empty and free of agency keywords; if none survive, fall
back to the whole cleaned container.  In the fallback,
`description_html = $desc.html()?.trim() || null` may be `null`, upon which
the unconditional `description_html.replace(...)` on line 79 throws a
TypeError (`Except.error`), to be caught by the DETAIL handler. -/
def cleanDescriptionV1 (d : DetailDoc) : Except Unit (Option String × Option String) :=
  match d.container with
  | none => .ok (none, none)
  | some c =>
    let kept := c.paragraphs.filter fun p =>
      jsTrim p.1 ≠ "" && !companyKeywords.any (fun kw => strContains (jsTrim p.1) kw)
    let htmlAcc := String.join (kept.map (·.2))
    let textAcc := String.join (kept.map (fun p => jsTrim p.1 ++ "\n\n"))
    if jsTrim textAcc = "" then
      match jsOrNull (c.innerHtml.map jsTrim) with
      | none => .error ()
      | some h => .ok (jsOrNull (some (compactHtml h)), jsOrNull (some (collapseWs (jsTrim c.innerText))))
    else .ok (jsOrNull (some (compactHtml htmlAcc)), jsOrNull (some (collapseWs textAcc)))

/-- V3 `cleanDescription` (`main.js` 842-851):

    const container = $('.job-details, .job-description, [class*="job-content"]').first();
    if (!container.length) return { html: null, text: null };
    const $desc = container.clone();
    [...].forEach(sel => $desc.find(sel).remove());
    return { html: $desc.html()?.trim() || null,
             text: $desc.text().replace(/\s+/g, ' ').trim() };

With the container absent both fields are `null`; with it present the text
field is a plain (possibly empty) string. -/
def cleanDescriptionV3 (d : DetailDoc) : Option String × Option String :=
  match d.container with
  | none => (none, none)
  | some c => (jsOrNull (c.innerHtml.map jsTrim), some (collapseWs c.innerText))

/-- `extractMetadata` — V1 (`main.js` 84-92), V2 (535-543), P0 (70-78): the
trimmed text of the last value span under the label's parent, with `""` and
the literal `"Not Specified"` normalized to `null`; its own try/catch makes a
throwing lookup yield `null`. -/
def extractMetadata (d : DetailDoc) (labelText : String) : Option String :=
  let v := jsTrim (d.metaRaw labelText)
  if v ≠ "" && v ≠ "Not Specified" then some v else none

/-- An output record as pushed to the dataset by the DETAIL handler. -/
structure OutRecord where
  base : Record
  description_html : Option String := none
  description_text : Option String := none
  jobType : Option String := none
  jobLocation : Option String := none
  nationality : Option String := none
  salary : Option String := none
  gender : Option String := none
  arabicFluency : Option String := none
  jobFunction : Option String := none
  companyIndustry : Option String := none
  error : Option String := none
  deriving Repr

/-- The V1 DETAIL handler (`main.js` 411-437): try to build the full record;
if extraction throws, still push the known job-summary data with both
description fields `null` and an explicit error marker.  Exactly one record
is pushed either way. -/
def handleDetailV1 (jobData : Record) (d : DetailDoc) : List OutRecord :=
  match cleanDescriptionV1 d with
  | .error _ =>
    [{ base := jobData, description_html := none, description_text := none,
       error := some "Failed to extract details" }]
  | .ok desc =>
    [{ base := jobData
       description_html := desc.1
       description_text := desc.2
       jobType := extractMetadata d "Job Type"
       jobLocation := extractMetadata d "Job Location"
       nationality := extractMetadata d "Nationality"
       salary := extractMetadata d "Salary"
       gender := extractMetadata d "Gender"
       arabicFluency := extractMetadata d "Arabic Fluency"
       jobFunction := extractMetadata d "Job Function"
       companyIndustry := extractMetadata d "Company Industry" }]

/-- `failedRequestHandler` — V1 (`main.js` 440-444), P0 (`part_000` 353-358):
a request that exhausted its retries is logged with a warning; nothing is
pushed to the dataset. -/
def failedRequestHandlerV1 : List OutRecord := []

/-- The record pushed directly from the LIST handler when no DETAIL hop is
made (V1 `main.js` 370 pushes the bare `jobData`). -/
def directRecord (e : Emission) : OutRecord := { base := e.data }

/-- The eventual dataset contents produced from a LIST page's emissions: a
direct record was already pushed during LIST handling; a DETAIL request is
fetched later and either its handler pushes exactly one record
(`handleDetailV1` on the document `docOf` yields for that job) or the request
permanently fails (`succeeds` is false) and `failedRequestHandlerV1` pushes
nothing. -/
def detailPhase (succeeds : String → Bool) (docOf : String → DetailDoc) :
    List Emission → List OutRecord
  | [] => []
  | e :: rest =>
    let tail := detailPhase succeeds docOf rest
    match e.kind with
    | .record => directRecord e :: tail
    | .detailRequest =>
      if succeeds e.jobId then handleDetailV1 e.data (docOf e.jobId) ++ tail
      else failedRequestHandlerV1 ++ tail

/-! ## Helper lemmas about the accept loops -/

theorem acceptJob_skip_of_seen (cfg : Config) (s : CrawlState) (j : Job) (id : String)
    (hid : j.id = some id) (hmem : id ∈ s.seenJobIds) : acceptJob cfg s j = (s, []) := by
  unfold acceptJob
  rw [hid]
  simp [hmem]

theorem acceptJob_seen_mono (cfg : Config) (s : CrawlState) (j : Job) :
    ∀ x ∈ s.seenJobIds, x ∈ (acceptJob cfg s j).1.seenJobIds := by
  intro x hx
  unfold acceptJob
  cases hid : j.id with
  | none => exact hx
  | some id =>
    by_cases h : id = "" ∨ id ∈ s.seenJobIds
    · simp [h, hx]
    · simp [h]
      exact Or.inr hx

theorem acceptJob_jobId_eq (cfg : Config) (s : CrawlState) (j : Job) :
    ∀ e ∈ (acceptJob cfg s j).2, j.id = some e.jobId := by
  intro e he
  cases hid : j.id with
  | none => simp [acceptJob, hid] at he
  | some id =>
    by_cases h : id = "" ∨ id ∈ s.seenJobIds
    · simp [acceptJob, hid, h] at he
    · simp [acceptJob, hid, h] at he
      split at he <;> simp [he]

theorem acceptJob_ems (cfg : Config) (s : CrawlState) (j : Job) :
    ∀ e ∈ (acceptJob cfg s j).2,
      e.jobId ∉ s.seenJobIds ∧ e.jobId ∈ (acceptJob cfg s j).1.seenJobIds := by
  intro e he
  cases hid : j.id with
  | none => simp [acceptJob, hid] at he
  | some id =>
    by_cases h : id = "" ∨ id ∈ s.seenJobIds
    · simp [acceptJob, hid, h] at he
    · have hje : e.jobId = id := by
        have := acceptJob_jobId_eq cfg s j e he
        rw [hid] at this
        exact (Option.some_inj.mp this).symm
      push_neg at h
      refine ⟨hje ▸ h.2, ?_⟩
      simp [acceptJob, hid, h, hje]

theorem processJobs1_seen_mono (cfg : Config) (jobs : List Job) (s : CrawlState) :
    ∀ x ∈ s.seenJobIds, x ∈ (processJobs1 cfg s jobs).1.seenJobIds := by
  induction jobs generalizing s with
  | nil => intro x hx; exact hx
  | cons j rest ih =>
    intro x hx
    unfold processJobs1
    by_cases hl : limitHit cfg.maxJobs s.jobsScraped
    · simp [hl]; exact hx
    · simp [hl]
      exact ih _ x (acceptJob_seen_mono cfg s j x hx)

theorem processJobs1_ems (cfg : Config) (jobs : List Job) (s : CrawlState) :
    ∀ e ∈ (processJobs1 cfg s jobs).2,
      e.jobId ∉ s.seenJobIds ∧ e.jobId ∈ (processJobs1 cfg s jobs).1.seenJobIds := by
  induction jobs generalizing s with
  | nil => intro e he; simp [processJobs1] at he
  | cons j rest ih =>
    intro e he
    unfold processJobs1 at he ⊢
    by_cases hl : limitHit cfg.maxJobs s.jobsScraped
    · simp [hl] at he
    · simp [hl] at he ⊢
      rcases he with he | he
      · have h1 := acceptJob_ems cfg s j e he
        exact ⟨h1.1, processJobs1_seen_mono cfg rest _ _ h1.2⟩
      · have h2 := ih _ e he
        constructor
        · intro hx
          exact h2.1 (acceptJob_seen_mono cfg s j _ hx)
        · exact h2.2

theorem acceptJob_ems_sub (cfg : Config) (s : CrawlState) (j : Job) :
    ∀ e ∈ (acceptJob cfg s j).2, ∀ x, x ∈ (acceptJob cfg s j).1.seenJobIds →
      x ≠ e.jobId → x ∈ s.seenJobIds := by
  intro e he x hx hne
  cases hid : j.id with
  | none => simp [acceptJob, hid] at he
  | some id =>
    by_cases h : id = "" ∨ id ∈ s.seenJobIds
    · simp [acceptJob, hid, h] at he
    · have hje : e.jobId = id := by
        have := acceptJob_jobId_eq cfg s j e he
        rw [hid] at this
        exact (Option.some_inj.mp this).symm
      simp [acceptJob, hid, h] at hx
      rcases hx with hx | hx
      · exact absurd (hx.trans hje.symm) hne
      · exact hx

theorem processJobs1_nodup (cfg : Config) (jobs : List Job) (s : CrawlState) :
    ((processJobs1 cfg s jobs).2.map Emission.jobId).Nodup := by
  induction jobs generalizing s with
  | nil => simp [processJobs1]
  | cons j rest ih =>
    unfold processJobs1
    by_cases hl : limitHit cfg.maxJobs s.jobsScraped
    · simp [hl]
    · simp only [hl, Bool.false_eq_true, if_false, List.map_append]
      refine List.Nodup.append ?_ (ih _) ?_
      · -- acceptJob emits at most one record
        cases hid : j.id with
        | none => simp [acceptJob, hid]
        | some id =>
          by_cases h : id = "" ∨ id ∈ s.seenJobIds
          · simp [acceptJob, hid, h]
          · simp only [acceptJob, hid]
            rw [if_neg h]
            simp
      · -- the head emission's id is fresh for the recursive call
        intro x hx hx2
        simp only [List.mem_map] at hx hx2
        obtain ⟨e, he, rfl⟩ := hx
        obtain ⟨e2, he2, heq⟩ := hx2
        have h1 := acceptJob_ems cfg s j e he
        have h2 := processJobs1_ems cfg rest _ e2 he2
        rw [heq] at h2
        exact h2.1 h1.2

theorem acceptJob_idem (cfg : Config) (s : CrawlState) (j : Job) :
    acceptJob cfg (acceptJob cfg s j).1 j = ((acceptJob cfg s j).1, []) := by
  cases hid : j.id with
  | none =>
    unfold acceptJob
    rw [hid]
  | some id =>
    by_cases h : id = "" ∨ id ∈ s.seenJobIds
    · have hskip : acceptJob cfg s j = (s, []) := by
        unfold acceptJob; rw [hid]; simp [h]
      rw [hskip]
      unfold acceptJob; rw [hid]; simp [h]
    · have hmem : id ∈ (acceptJob cfg s j).1.seenJobIds := by
        simp only [acceptJob, hid]
        rw [if_neg h]
        simp
      set s1 := (acceptJob cfg s j).1 with hs1
      simp only [acceptJob, hid]
      rw [if_pos (Or.inr hmem)]

theorem acceptJob0_skip_of_seen (cfg : Config) (s : CrawlState) (j : Job0) (id : String)
    (hid : extractJobId j.link = some id) (hmem : id ∈ s.seenJobIds) :
    acceptJob0 cfg s j = (s, []) := by
  unfold acceptJob0
  rw [hid]
  simp [hmem]

theorem acceptJob0_idem (cfg : Config) (s : CrawlState) (j : Job0) :
    acceptJob0 cfg (acceptJob0 cfg s j).1 j = ((acceptJob0 cfg s j).1, []) := by
  cases hid : extractJobId j.link with
  | none =>
    unfold acceptJob0
    rw [hid]
  | some id =>
    by_cases h : id ∈ s.seenJobIds
    · have hskip : acceptJob0 cfg s j = (s, []) := acceptJob0_skip_of_seen cfg s j id hid h
      rw [hskip]
      exact acceptJob0_skip_of_seen cfg s j id hid h
    · have hmem : id ∈ (acceptJob0 cfg s j).1.seenJobIds := by
        simp only [acceptJob0, hid]
        rw [if_neg h]
        split <;> simp
      set s1 := (acceptJob0 cfg s j).1 with hs1
      simp only [acceptJob0, hid]
      rw [if_pos hmem]

/-! ## Claim C1 -/

/-- C1: for every run and every job id, at most one record is emitted per id
and `jobsScraped` counts it at most once.  (1) An id already in `seenJobIds`
is skipped by the V1 accept loop with no state change and no emission;
(2) accepting the same job again right after accepting it is a no-op on the
resulting state (marking seen twice is observably marking once); (3) and (4)
the same two facts for the P0 accept loop, whose id is derived by
`extractJobId`; (5) across any two LIST pages processed in sequence — in
particular two pages listing the same id — the emitted dedup keys are
pairwise distinct, so at most one emission ever carries a given id. -/
theorem markSeen_idempotent_no_double_emit :
    (∀ cfg s j id, j.id = some id → id ∈ s.seenJobIds → acceptJob cfg s j = (s, [])) ∧
    (∀ cfg s j, acceptJob cfg (acceptJob cfg s j).1 j = ((acceptJob cfg s j).1, [])) ∧
    (∀ cfg s j0 id, extractJobId j0.link = some id → id ∈ s.seenJobIds →
      acceptJob0 cfg s j0 = (s, [])) ∧
    (∀ cfg s j0, acceptJob0 cfg (acceptJob0 cfg s j0).1 j0 = ((acceptJob0 cfg s j0).1, [])) ∧
    (∀ cfg s p1 p2,
      (((processJobs1 cfg s p1).2 ++
          (processJobs1 cfg (processJobs1 cfg s p1).1 p2).2).map Emission.jobId).Nodup) := by
  refine ⟨acceptJob_skip_of_seen, acceptJob_idem, acceptJob0_skip_of_seen, acceptJob0_idem, ?_⟩
  intro cfg s p1 p2
  rw [List.map_append]
  refine List.Nodup.append (processJobs1_nodup cfg p1 s) (processJobs1_nodup cfg p2 _) ?_
  intro x hx1 hx2
  simp only [List.mem_map] at hx1 hx2
  obtain ⟨e1, he1, rfl⟩ := hx1
  obtain ⟨e2, he2, heq⟩ := hx2
  have h1 := processJobs1_ems cfg p1 s e1 he1
  have h2 := processJobs1_ems cfg p2 _ e2 he2
  rw [heq] at h2
  exact h2.1 h1.2

/-- Witness for C1 at concrete inputs: a job whose id `"101"` is already in
`seenJobIds` is skipped without any emission, and two pages both listing id
`"202"` yield it exactly once. -/
theorem markSeen_idempotent_no_double_emit_witness :
    (({ id := some "101" } : Job).id = some "101" ∧
      "101" ∈ ({ seenJobIds := ["101"] } : CrawlState).seenJobIds ∧
      acceptJob {} { seenJobIds := ["101"] } { id := some "101" } =
        ({ seenJobIds := ["101"] }, [])) ∧
    ((({ link := "/jobs/a-303" } : Job0).link = "/jobs/a-303") ∧
      extractJobId "/jobs/a-303" = some "303" ∧
      "303" ∈ ({ seenJobIds := ["303"] } : CrawlState).seenJobIds ∧
      acceptJob0 {} { seenJobIds := ["303"] } { link := "/jobs/a-303" } =
        ({ seenJobIds := ["303"] }, [])) := by
  refine ⟨⟨rfl, by simp, ?_⟩, ⟨rfl, by decide, by simp, ?_⟩⟩
  · exact markSeen_idempotent_no_double_emit.1 {} { seenJobIds := ["101"] }
      { id := some "101" } "101" rfl (by simp)
  · exact markSeen_idempotent_no_double_emit.2.2.1 {} { seenJobIds := ["303"] }
      { link := "/jobs/a-303" } "303" (by decide) (by simp)

/-! ## Counting lemmas for the accept loops -/

theorem acceptJob_accept (cfg : Config) (s : CrawlState) (j : Job) (id : String)
    (hid : j.id = some id) (h : ¬(id = "" ∨ id ∈ s.seenJobIds)) :
    (acceptJob cfg s j).1 =
      { s with seenJobIds := id :: s.seenJobIds, jobsScraped := s.jobsScraped + 1 } := by
  simp only [acceptJob, hid]
  rw [if_neg h]

theorem acceptJob_jobsScraped (cfg : Config) (s : CrawlState) (j : Job) :
    (acceptJob cfg s j).1.jobsScraped = s.jobsScraped + (acceptJob cfg s j).2.length := by
  cases hid : j.id with
  | none => simp [acceptJob, hid]
  | some id =>
    by_cases h : id = "" ∨ id ∈ s.seenJobIds
    · simp [acceptJob, hid, h]
    · simp only [acceptJob, hid]
      rw [if_neg h]
      simp

theorem processJobs1_jobsScraped (cfg : Config) (jobs : List Job) (s : CrawlState) :
    (processJobs1 cfg s jobs).1.jobsScraped =
      s.jobsScraped + (processJobs1 cfg s jobs).2.length := by
  induction jobs generalizing s with
  | nil => simp [processJobs1]
  | cons j rest ih =>
    unfold processJobs1
    by_cases hl : limitHit cfg.maxJobs s.jobsScraped
    · simp [hl]
    · simp only [hl, Bool.false_eq_true, if_false, List.length_append]
      rw [ih, acceptJob_jobsScraped]
      omega

theorem acceptJob_jobsScraped_le (cfg : Config) (s : CrawlState) (j : Job) :
    (acceptJob cfg s j).1.jobsScraped ≤ s.jobsScraped + 1 := by
  cases hid : j.id with
  | none => simp [acceptJob, hid]
  | some id =>
    by_cases h : id = "" ∨ id ∈ s.seenJobIds
    · simp [acceptJob, hid, h]
    · simp only [acceptJob, hid]
      rw [if_neg h]

theorem processJobs1_jobsScraped_le (cfg : Config) (k : Nat) (hk : cfg.maxJobs = some k)
    (hk0 : k ≠ 0) (jobs : List Job) (s : CrawlState) (hle : s.jobsScraped ≤ k) :
    (processJobs1 cfg s jobs).1.jobsScraped ≤ k := by
  induction jobs generalizing s with
  | nil => simpa [processJobs1] using hle
  | cons j rest ih =>
    unfold processJobs1
    by_cases hl : limitHit cfg.maxJobs s.jobsScraped
    · simpa [hl] using hle
    · simp only [hl, Bool.false_eq_true, if_false]
      refine ih _ ?_
      have hlt : s.jobsScraped < k := by
        simp [limitHit, hk, hk0] at hl
        omega
      have := acceptJob_jobsScraped_le cfg s j
      omega

theorem acceptJob0_jobsScraped_le (cfg : Config) (s : CrawlState) (j : Job0) :
    (acceptJob0 cfg s j).1.jobsScraped ≤ s.jobsScraped + 1 := by
  cases hid : extractJobId j.link with
  | none => simp [acceptJob0, hid]
  | some id =>
    by_cases h : id ∈ s.seenJobIds
    · simp [acceptJob0, hid, h]
    · simp only [acceptJob0, hid]
      rw [if_neg h]
      split <;> simp

theorem processJobs0_jobsScraped_le (cfg : Config) (k : Nat) (hk : cfg.maxJobs = some k)
    (hk0 : k ≠ 0) (jobs : List Job0) (s : CrawlState) (hle : s.jobsScraped ≤ k) :
    (processJobs0 cfg s jobs).1.jobsScraped ≤ k := by
  induction jobs generalizing s with
  | nil => simpa [processJobs0] using hle
  | cons j rest ih =>
    unfold processJobs0
    by_cases hl : limitHit cfg.maxJobs s.jobsScraped
    · simpa [hl] using hle
    · simp only [hl, Bool.false_eq_true, if_false]
      refine ih _ ?_
      have hlt : s.jobsScraped < k := by
        simp [limitHit, hk, hk0] at hl
        omega
      have := acceptJob0_jobsScraped_le cfg s j
      omega

/-- A page of jobs all carrying valid, pairwise-distinct ids that are not yet
in the dedup set — the shape of "more than `maxJobs` available jobs". -/
def freshJobs (s : CrawlState) (jobs : List Job) : Prop :=
  (∀ j ∈ jobs, ∃ id, j.id = some id ∧ id ≠ "" ∧ id ∉ s.seenJobIds) ∧
    (jobs.map Job.id).Nodup

theorem processJobs1_fresh_count (cfg : Config) (k : Nat) (hk : cfg.maxJobs = some k)
    (hk0 : k ≠ 0) (jobs : List Job) (s : CrawlState) (hfresh : freshJobs s jobs)
    (hle : s.jobsScraped ≤ k) :
    (processJobs1 cfg s jobs).1.jobsScraped = min k (s.jobsScraped + jobs.length) := by
  induction jobs generalizing s with
  | nil =>
    simp [processJobs1]
    omega
  | cons j rest ih =>
    unfold processJobs1
    by_cases hl : limitHit cfg.maxJobs s.jobsScraped
    · have : k ≤ s.jobsScraped := by
        simp [limitHit, hk, hk0] at hl
        omega
      simp [hl]
      omega
    · have hlt : s.jobsScraped < k := by
        simp [limitHit, hk, hk0] at hl
        omega
      obtain ⟨id, hid, hne, hnotin⟩ := hfresh.1 j (by simp)
      have hcond : ¬(id = "" ∨ id ∈ s.seenJobIds) := by
        push_neg
        exact ⟨hne, hnotin⟩
      have hstep := acceptJob_accept cfg s j id hid hcond
      simp only [hl, Bool.false_eq_true, if_false]
      have hfresh1 : freshJobs (acceptJob cfg s j).1 rest := by
        constructor
        · intro j2 hj2
          obtain ⟨id2, hid2, hne2, hnotin2⟩ := hfresh.1 j2 (by simp [hj2])
          refine ⟨id2, hid2, hne2, ?_⟩
          rw [hstep]
          simp only [List.mem_cons]
          rintro (rfl | hmem)
          · have hnodup := hfresh.2
            simp only [List.map_cons, List.nodup_cons] at hnodup
            exact hnodup.1 (by
              rw [hid, ← hid2]
              exact List.mem_map_of_mem Job.id hj2)
          · exact hnotin2 hmem
        · have hnodup := hfresh.2
          simp only [List.map_cons, List.nodup_cons] at hnodup
          exact hnodup.2
      have hjs : (acceptJob cfg s j).1.jobsScraped = s.jobsScraped + 1 := by
        rw [hstep]
      rw [ih _ hfresh1 (by omega), hjs]
      simp only [List.length_cons]
      omega

/-! ## Claim C2 -/

/-- C2: with `maxJobs = k` (for `k ≥ 1`) the accept loops never let
`jobsScraped` pass `k` from any state that is still within the limit (so no
`(k+1)`-th DETAIL enqueue or record emission can ever occur, on any later
page either), for both the V1 loop (`main.js` 344-375) and the P0 loop
(`part_000` 239-277); and from a fresh start against a page offering more
than `k` distinct available jobs, the V1 loop accepts exactly `k` of them and
produces exactly `k` emissions. -/
theorem maxJobs_cap_exact :
    ∀ k : Nat, 1 ≤ k → ∀ cfg : Config, cfg.maxJobs = some k →
      (∀ s jobs, s.jobsScraped ≤ k → (processJobs1 cfg s jobs).1.jobsScraped ≤ k) ∧
      (∀ s jobs0, s.jobsScraped ≤ k → (processJobs0 cfg s jobs0).1.jobsScraped ≤ k) ∧
      (∀ jobs, freshJobs {} jobs → k < jobs.length →
        (processJobs1 cfg {} jobs).1.jobsScraped = k ∧
          (processJobs1 cfg {} jobs).2.length = k) := by
  intro k hk cfg hcfg
  have hk0 : k ≠ 0 := by omega
  refine ⟨fun s jobs hle => processJobs1_jobsScraped_le cfg k hcfg hk0 jobs s hle,
    fun s jobs0 hle => processJobs0_jobsScraped_le cfg k hcfg hk0 jobs0 s hle,
    fun jobs hfresh hlen => ?_⟩
  have hcount := processJobs1_fresh_count cfg k hcfg hk0 jobs {} hfresh (by simp)
  have hmin : min k (({} : CrawlState).jobsScraped + jobs.length) = k := by
    simp
    omega
  rw [hmin] at hcount
  refine ⟨hcount, ?_⟩
  have := processJobs1_jobsScraped cfg jobs {}
  rw [hcount] at this
  simpa using this.symm

/-- Witness for C2: `maxJobs = 2` against a page of three fresh jobs accepts
exactly two of them. -/
theorem maxJobs_cap_exact_witness :
    (1 ≤ 2 ∧
      ({ maxJobs := some 2 } : Config).maxJobs = some 2 ∧
      freshJobs {} [{ id := some "1" }, { id := some "2" }, { id := some "3" }] ∧
      2 < ([{ id := some "1" }, { id := some "2" }, { id := some "3" }] : List Job).length) ∧
    (processJobs1 { maxJobs := some 2 } {}
        [{ id := some "1" }, { id := some "2" }, { id := some "3" }]).1.jobsScraped = 2 ∧
    (processJobs1 { maxJobs := some 2 } {}
        [{ id := some "1" }, { id := some "2" }, { id := some "3" }]).2.length = 2 := by
  have hfresh : freshJobs {} [{ id := some "1" }, { id := some "2" }, { id := some "3" }] := by
    constructor
    · intro j hj
      simp only [List.mem_cons, List.not_mem_nil, or_false] at hj
      rcases hj with rfl | rfl | rfl
      · exact ⟨"1", rfl, by decide, by simp⟩
      · exact ⟨"2", rfl, by decide, by simp⟩
      · exact ⟨"3", rfl, by decide, by simp⟩
    · decide
  exact ⟨⟨by decide, rfl, hfresh, by decide⟩,
    (maxJobs_cap_exact 2 (by decide) { maxJobs := some 2 } rfl).2.2 _ hfresh (by decide)⟩

/-! ## Page-count lemmas -/

theorem acceptJob_pagesScraped (cfg : Config) (s : CrawlState) (j : Job) :
    (acceptJob cfg s j).1.pagesScraped = s.pagesScraped := by
  cases hid : j.id with
  | none => simp [acceptJob, hid]
  | some id =>
    by_cases h : id = "" ∨ id ∈ s.seenJobIds
    · simp [acceptJob, hid, h]
    · simp only [acceptJob, hid]
      rw [if_neg h]

theorem processJobs1_pagesScraped (cfg : Config) (jobs : List Job) (s : CrawlState) :
    (processJobs1 cfg s jobs).1.pagesScraped = s.pagesScraped := by
  induction jobs generalizing s with
  | nil => simp [processJobs1]
  | cons j rest ih =>
    unfold processJobs1
    by_cases hl : limitHit cfg.maxJobs s.jobsScraped
    · simp [hl]
    · simp only [hl, Bool.false_eq_true, if_false]
      rw [ih, acceptJob_pagesScraped]

theorem acceptJob0_pagesScraped (cfg : Config) (s : CrawlState) (j : Job0) :
    (acceptJob0 cfg s j).1.pagesScraped = s.pagesScraped := by
  cases hid : extractJobId j.link with
  | none => simp [acceptJob0, hid]
  | some id =>
    by_cases h : id ∈ s.seenJobIds
    · simp [acceptJob0, hid, h]
    · simp only [acceptJob0, hid]
      rw [if_neg h]
      split <;> rfl

theorem processJobs0_pagesScraped (cfg : Config) (jobs : List Job0) (s : CrawlState) :
    (processJobs0 cfg s jobs).1.pagesScraped = s.pagesScraped := by
  induction jobs generalizing s with
  | nil => simp [processJobs0]
  | cons j rest ih =>
    unfold processJobs0
    by_cases hl : limitHit cfg.maxJobs s.jobsScraped
    · simp [hl]
    · simp only [hl, Bool.false_eq_true, if_false]
      rw [ih, acceptJob0_pagesScraped]

theorem processListV1_pagesScraped (cfg : Config) (pageNum : Nat) (s : CrawlState)
    (doc : Doc) : (processListV1 cfg pageNum s doc).1.pagesScraped = s.pagesScraped + 1 := by
  unfold processListV1
  simp only []
  rw [processJobs1_pagesScraped]

theorem processListV1_enqueue_gate (cfg : Config) (n : Nat) (hn : cfg.maxPages = some n)
    (hn0 : n ≠ 0) (pageNum : Nat) (s : CrawlState) (doc : Doc)
    (hcont : (processListV1 cfg pageNum s doc).2.2 = true) : s.pagesScraped + 1 < n := by
  unfold processListV1 at hcont
  simp only [Bool.and_eq_true] at hcont
  have hallow := hcont.1.2
  rw [hn] at hallow
  simp only [limitAllows, Bool.or_eq_true, beq_iff_eq, decide_eq_true_eq] at hallow
  rw [processJobs1_pagesScraped] at hallow
  rcases hallow with h0 | hlt
  · exact absurd h0 hn0
  · simpa using hlt

theorem part000ProcessList_enqueue_gate (cfg : Config) (n : Nat) (hn : cfg.maxPages = some n)
    (hn0 : n ≠ 0) (s : CrawlState) (doc : Doc) (s2 : CrawlState) (ems : List Emission)
    (hdone : part000ProcessList cfg s doc = .done s2 ems true) : s.pagesScraped + 1 < n := by
  unfold part000ProcessList at hdone
  by_cases hb : isBlocked doc
  · simp [hb] at hdone
  · simp only [hb, Bool.false_eq_true, if_false] at hdone
    split at hdone
    · simp at hdone
    · simp only [ListOutcome.done.injEq] at hdone
      have hc := hdone.2.2
      simp only [Bool.and_eq_true] at hc
      have hallow := hc.1.2
      rw [hn] at hallow
      simp only [limitAllows, Bool.or_eq_true, beq_iff_eq, decide_eq_true_eq] at hallow
      rw [processJobs0_pagesScraped] at hallow
      rcases hallow with h0 | hlt
      · exact absurd h0 hn0
      · simpa using hlt

theorem crawlLoopV1_pages_le (cfg : Config) (n : Nat) (hn : cfg.maxPages = some n)
    (hn0 : n ≠ 0) (oracle : Nat → Doc) :
    ∀ fuel pageNum s, s.pagesScraped < n →
      (crawlLoopV1 cfg oracle fuel pageNum s).2 + s.pagesScraped ≤ n := by
  intro fuel
  induction fuel with
  | zero =>
    intro pageNum s hlt
    simpa [crawlLoopV1] using Nat.le_of_lt hlt
  | succ fuel ih =>
    intro pageNum s hlt
    unfold crawlLoopV1
    by_cases hcont : (processListV1 cfg pageNum s (oracle pageNum)).2.2
    · simp only [hcont, if_true]
      have hgate := processListV1_enqueue_gate cfg n hn hn0 pageNum s (oracle pageNum) hcont
      have hpages := processListV1_pagesScraped cfg pageNum s (oracle pageNum)
      have hrec := ih (pageNum + 1) (processListV1 cfg pageNum s (oracle pageNum)).1
        (by omega)
      omega
    · simp only [hcont, Bool.false_eq_true, if_false]
      omega

/-! ## Claim C3 -/

/-- C3: with `maxPages = n` (`n ≥ 1`), a successor LIST page is enqueued only
while the count of LIST pages already processed (including the current one)
is still below `n` — proved for the V1 pagination decision (`main.js`
380-409) and the P0 `shouldContinue` (`part_000` 281-295); consequently a run
of the V1 crawl loop from a fresh state processes at most `n` LIST requests,
for every oracle (hence regardless of the `totalAvailable` any page
declares) and however much fuel the loop is given, so pagination terminates. -/
theorem maxPages_bound :
    ∀ n : Nat, 1 ≤ n → ∀ cfg : Config, cfg.maxPages = some n →
      (∀ pageNum s doc, (processListV1 cfg pageNum s doc).2.2 = true →
        s.pagesScraped + 1 < n) ∧
      (∀ s doc s2 ems, part000ProcessList cfg s doc = .done s2 ems true →
        s.pagesScraped + 1 < n) ∧
      (∀ oracle fuel pageNum, (crawlLoopV1 cfg oracle fuel pageNum {}).2 ≤ n) := by
  intro n hn cfg hcfg
  have hn0 : n ≠ 0 := by omega
  refine ⟨fun pageNum s doc h => processListV1_enqueue_gate cfg n hcfg hn0 pageNum s doc h,
    fun s doc s2 ems h => part000ProcessList_enqueue_gate cfg n hcfg hn0 s doc s2 ems h,
    fun oracle fuel pageNum => ?_⟩
  have := crawlLoopV1_pages_le cfg n hcfg hn0 oracle fuel pageNum {} (by simpa using hn)
  simpa using this

/-- Witness for C3 at `maxPages = 3`: a source that always declares 1000
available jobs and always yields a fresh page cannot cause more than 3 LIST
requests, even with plenty of fuel. -/
theorem maxPages_bound_witness :
    (1 ≤ 3 ∧ ({ maxPages := some 3 } : Config).maxPages = some 3) ∧
    (crawlLoopV1 { maxPages := some 3 }
      (fun p => { embedded := some { data := [{ id := some (Int.ofNat p), url := some "/x" }],
                                     total := 1000, perPage := 1 } })
      50 1 {}).2 ≤ 3 :=
  ⟨⟨by decide, rfl⟩,
    (maxPages_bound 3 (by decide) { maxPages := some 3 } rfl).2.2
      (fun p => { embedded := some { data := [{ id := some (Int.ofNat p), url := some "/x" }],
                                     total := 1000, perPage := 1 } })
      50 1⟩

/-! ## Claim C4 -/

/-- C4: list extraction tries the strategies in their fixed order and the
first strategy with a non-empty job set wins.  For V1 (`main.js` 270-340):
(1) when the embedded-JSON strategy yields any jobs, its result is the
extraction result verbatim and the HTML fallback is never consulted; (2) the
HTML fallback result is used exactly when the embedded strategy yielded zero
jobs; (3) a missing/unparsable embedded payload counts as zero results (the
parse error is caught, not propagated); (4) an embedded payload with `m > 0`
rows yields exactly those `m` normalized JobSummaries.  (5) The same
dispatch for P0 (`part_000` 166-236): a non-empty embedded payload is used
as-is and the anchor fallback is skipped. -/
theorem list_strategy_order :
    (∀ doc seen, (extractJobsFromEmbeddedJSON doc).1 ≠ [] →
      extractListV1 doc seen = extractJobsFromEmbeddedJSON doc) ∧
    (∀ doc seen, (extractJobsFromEmbeddedJSON doc).1 = [] →
      (extractListV1 doc seen).1 = htmlFallbackV1 doc seen) ∧
    (∀ doc, doc.embedded = none → (extractJobsFromEmbeddedJSON doc).1 = []) ∧
    (∀ doc seen p, doc.embedded = some p → p.data ≠ [] →
      (extractListV1 doc seen).1 = p.data.map normalizeV1) ∧
    (∀ doc seen p, doc.embedded = some p → p.data ≠ [] →
      (extractList0 doc seen).1 = p.data.map rawToJob0) := by
  refine ⟨?_, ?_, ?_, ?_, ?_⟩
  · intro doc seen hne
    unfold extractListV1
    rw [if_neg (by simpa [List.length_eq_zero] using hne)]
  · intro doc seen heq
    unfold extractListV1
    rw [if_pos (by simp [heq])]
  · intro doc h
    simp [extractJobsFromEmbeddedJSON, h]
  · intro doc seen p hp hne
    have hjobs : (extractJobsFromEmbeddedJSON doc).1 = p.data.map normalizeV1 := by
      simp [extractJobsFromEmbeddedJSON, hp]
    have hne2 : (extractJobsFromEmbeddedJSON doc).1 ≠ [] := by
      rw [hjobs]
      simpa using hne
    unfold extractListV1
    rw [if_neg (by simpa [List.length_eq_zero] using hne2)]
    exact hjobs
  · intro doc seen p hp hne
    unfold extractList0
    rw [hp]
    simp only []
    rw [if_neg (by simpa [List.length_eq_zero] using hne)]

/-- The ten markup anchors of the C4 witness document. -/
def anchorsC4 : List Anchor :=
  (List.range 10).map fun i => { href := "/jobs/role-" ++ toString (i + 1),
                                 text := "Software Engineer" }

/-- The embedded payload of the C4 witness document: two jobs. -/
def payC4 : Payload :=
  { data := [{ id := some 11, title := some "Embedded One", url := some "/jobs/role-11" },
             { id := some 12, title := some "Embedded Two", url := some "/jobs/role-12" }],
    total := 2, perPage := 20 }

/-- The C4 witness document: an embedded payload with 2 jobs next to markup
anchors implying 10 jobs. -/
def docC4 : Doc := { embedded := some payC4, anchors := anchorsC4 }

/-- Witness for C4: on a document carrying both an embedded payload with 2
jobs and anchors implying 10 jobs, exactly the 2 embedded JobSummaries are
produced, although the fallback alone would have yielded 10. -/
theorem list_strategy_order_witness :
    (docC4.embedded = some payC4 ∧ payC4.data ≠ []) ∧
    (extractListV1 docC4 []).1 = payC4.data.map normalizeV1 ∧
    (extractListV1 docC4 []).1.length = 2 ∧
    (htmlFallbackV1 docC4 []).length = 10 := by
  refine ⟨⟨rfl, by decide⟩, ?_, ?_, ?_⟩
  · exact list_strategy_order.2.2.2.1 docC4 [] payC4 rfl (by decide)
  · rw [list_strategy_order.2.2.2.1 docC4 [] payC4 rfl (by decide)]
    rfl
  · decide

/-! ## Claim C5 -/

/-- C5: detail extraction never drops the job.  (1) With the description
container absent, both `cleanDescription` variants cited by the spec return
`null` for the html and text fields (never empty strings), without any
exception path (`Except.ok`); (2) the V1 DETAIL handler (`main.js` 411-437)
pushes exactly one record for every detail document — no exception escapes
it; (3) when description extraction throws inside the `try`, the pushed
record still carries the already-known job-summary fields with both
description fields `null` and the explicit error marker. -/
theorem detail_never_drops :
    (∀ d : DetailDoc, d.container = none →
      cleanDescriptionV3 d = (none, none) ∧ cleanDescriptionV1 d = .ok (none, none)) ∧
    (∀ jobData d, (handleDetailV1 jobData d).length = 1) ∧
    (∀ jobData d e, cleanDescriptionV1 d = .error e →
      handleDetailV1 jobData d =
        [{ base := jobData, description_html := none, description_text := none,
           error := some "Failed to extract details" }]) := by
  refine ⟨?_, ?_, ?_⟩
  · intro d h
    exact ⟨by simp [cleanDescriptionV3, h], by simp [cleanDescriptionV1, h]⟩
  · intro jobData d
    unfold handleDetailV1
    cases cleanDescriptionV1 d <;> simp
  · intro jobData d e h
    simp [handleDetailV1, h]

/-- A base record for the C5 witness. -/
def baseRecC5 : Record :=
  { title := "Known Title", company := "Known Co", location := "Dubai",
    date_posted := .str "Not specified" }

/-- A detail document whose cleaned container survives with neither
paragraphs nor markup, so `description_html` comes out `null` and the
unconditional `.replace` throws. -/
def throwingDocC5 : DetailDoc :=
  { container := some { paragraphs := [], innerText := "", innerHtml := none } }

/-- Witness for C5: a detail page without the description container yields
`null`/`null` and one record; a page on which extraction throws still yields
exactly one record with null detail fields and the error marker. -/
theorem detail_never_drops_witness :
    (({} : DetailDoc).container = none ∧
      cleanDescriptionV3 {} = (none, none) ∧ cleanDescriptionV1 {} = .ok (none, none)) ∧
    (handleDetailV1 baseRecC5 {}).length = 1 ∧
    (cleanDescriptionV1 throwingDocC5 = .error () ∧
      handleDetailV1 baseRecC5 throwingDocC5 =
        [{ base := baseRecC5, description_html := none, description_text := none,
           error := some "Failed to extract details" }]) := by
  refine ⟨⟨rfl, ?_⟩, ?_, rfl, ?_⟩
  · exact detail_never_drops.1 {} rfl
  · exact detail_never_drops.2.1 baseRecC5 {}
  · exact detail_never_drops.2.2 baseRecC5 throwingDocC5 () rfl

/-! ## Claim C6 -/

/-- C6 counterexample: on a document whose title contains "captcha" the V2
LIST handler (`main.js` 606-609) does not throw — it completes normally with
the state untouched, nothing emitted and no successor page, so the request is
silently skipped rather than retried, refuting the claim that every blocked
list fetch is treated as a retriable failure and retried. -/
theorem blocked_not_retried_cex :
    isBlocked { title := "please solve the captcha", bodyText := "" } = true ∧
    mainV2List {} 1 true {} { title := "please solve the captcha", bodyText := "" } =
      .done {} [] false :=
  ⟨by decide, rfl⟩

/-- C6 amended: a positively-blocked list document never reaches an
extractor, never updates a counter and never triggers a pagination decision,
in both cited variants; but only P0 (`part_000` 152-155) converts it into a
thrown error (which Crawlee retries), while V2 (`main.js` 606-609) `return`s,
completing the request without a retry. -/
theorem blocked_gate_amended :
    (∀ cfg s doc, isBlocked doc = true →
      part000ProcessList cfg s doc = .threw "Blocked by website") ∧
    (∀ cfg pageNum isAjaxUrl s doc, isBlocked doc = true →
      mainV2List cfg pageNum isAjaxUrl s doc = .done s [] false) := by
  constructor
  · intro cfg s doc h
    simp [part000ProcessList, h]
  · intro cfg pageNum isAjaxUrl s doc h
    simp [mainV2List, h]

/-- Witness for the amended C6 at a concrete captcha page. -/
theorem blocked_gate_amended_witness :
    isBlocked { title := "please solve the captcha", bodyText := "" } = true ∧
    part000ProcessList {} { jobsScraped := 7 } { title := "please solve the captcha" } =
      .threw "Blocked by website" ∧
    mainV2List {} 1 false { jobsScraped := 7 } { title := "please solve the captcha" } =
      .done { jobsScraped := 7 } [] false := by
  refine ⟨by decide, ?_, ?_⟩
  · exact blocked_gate_amended.1 {} { jobsScraped := 7 }
      { title := "please solve the captcha" } (by decide)
  · exact blocked_gate_amended.2 {} 1 false { jobsScraped := 7 }
      { title := "please solve the captcha" } (by decide)

/-! ## Claim C7 -/

/-- The blocking predicate exactly as the claim words it (for comparison with
the code): true iff the lowercased title or lowercased body prefix contains a
member of the fixed set
`{access denied, captcha, cloudflare, security check, blocked, robot}`. -/
def claimedBlocked (doc : Doc) : Bool :=
  let title := strToLower doc.title
  let bodyStart := strToLower (strTake doc.bodyText 300)
  ["access denied", "captcha", "cloudflare", "security check", "blocked", "robot"].any
    fun indicator => strContains title indicator || strContains bodyStart indicator

/-- C7 counterexample: the claimed indicator set is wrong for every variant.
A title reading "security check" is in the claimed set but `isBlocked`
(`main.js` 527-533, `part_000` 62-68) returns `false` on it; and the P1c
variant (`part_001` 611-628) returns `true` on a title reading "not found",
which is outside the claimed set. -/
theorem isBlocked_indicator_set_cex :
    claimedBlocked { title := "security check", bodyText := "" } = true ∧
    isBlocked { title := "security check", bodyText := "" } = false ∧
    claimedBlocked { title := "page not found", bodyText := "" } = false ∧
    isBlockedP1c { title := "page not found", bodyText := "" } = true := by
  refine ⟨by decide, by decide, by decide, by decide⟩

/-- C7 amended: each `isBlocked` is a pure predicate returning true exactly
when the lowercased title or lowercased body prefix contains a member of its
variant's fixed indicator set — `{access denied, captcha, cloudflare,
blocked}` over a 300-character prefix for `main.js`/`part_000`, and
`{access denied, captcha, cloudflare, security check, blocked, robot,
not found}` over a 500-character prefix for the `part_001` variant. -/
theorem isBlocked_indicator_set_amended :
    ∀ doc : Doc,
      (isBlocked doc = true ↔
        ∃ tok ∈ ["access denied", "captcha", "cloudflare", "blocked"],
          (strContains (strToLower doc.title) tok = true ∨
            strContains (strToLower (strTake doc.bodyText 300)) tok = true)) ∧
      (isBlockedP1c doc = true ↔
        ∃ tok ∈ ["access denied", "captcha", "cloudflare", "security check", "blocked",
            "robot", "not found"],
          (strContains (strToLower doc.title) tok = true ∨
            strContains (strToLower (strTake doc.bodyText 500)) tok = true)) := by
  intro doc
  constructor
  · simp [isBlocked, List.any_eq_true, Bool.or_eq_true]
  · simp [isBlockedP1c, List.any_eq_true, Bool.or_eq_true]

/-! ## Query-parameter lemmas -/

theorem toDigitsCore_ne_nil (b : Nat) :
    ∀ (fuel n : Nat) (ds : List Char), ds ≠ [] → Nat.toDigitsCore b fuel n ds ≠ [] := by
  intro fuel
  induction fuel with
  | zero => intro n ds h; simpa [Nat.toDigitsCore] using h
  | succ fuel ih =>
    intro n ds h
    simp only [Nat.toDigitsCore]
    split
    · simp
    · exact ih _ _ (by simp)

theorem natToString_ne_empty (n : Nat) : toString n ≠ "" := by
  show Nat.repr n ≠ ""
  unfold Nat.repr Nat.toDigits
  intro h
  have hne : Nat.toDigitsCore 10 (n + 1) n [] ≠ [] := by
    simp only [Nat.toDigitsCore]
    split
    · simp
    · exact toDigitsCore_ne_nil 10 _ _ _ (by simp)
  exact hne (congrArg String.data h)

theorem lookupParam_dropKey_ne (ps : List (String × String)) (k k2 : String) (h : k2 ≠ k) :
    lookupParam (ps.filter fun p => p.1 ≠ k) k2 = lookupParam ps k2 := by
  induction ps with
  | nil => simp
  | cons a ps ih =>
    by_cases h1 : a.1 = k
    · rw [List.filter_cons_of_neg (by simp [h1])]
      rw [ih]
      unfold lookupParam
      rw [List.find?_cons_of_neg _ (by simp [h1, Ne.symm h])]
    · rw [List.filter_cons_of_pos (by simp [h1])]
      by_cases h2 : a.1 = k2
      · unfold lookupParam
        rw [List.find?_cons_of_pos _ (by simp [h2]), List.find?_cons_of_pos _ (by simp [h2])]
      · unfold lookupParam
        rw [List.find?_cons_of_neg _ (by simp [h2]), List.find?_cons_of_neg _ (by simp [h2])]
        exact ih

theorem setParam_lookup_self (ps : List (String × String)) (k v : String) :
    lookupParam (setParam ps k v) k = some v := by
  induction ps with
  | nil => simp [setParam, lookupParam]
  | cons a ps ih =>
    by_cases h : a.1 = k
    · obtain ⟨k1, v1⟩ := a
      simp only at h
      simp [setParam, h, lookupParam]
    · obtain ⟨k1, v1⟩ := a
      simp only at h
      rw [show setParam ((k1, v1) :: ps) k v = (k1, v1) :: setParam ps k v by
        simp [setParam, h]]
      unfold lookupParam
      rw [List.find?_cons_of_neg _ (by simp [h])]
      exact ih

theorem setParam_lookup_ne (ps : List (String × String)) (k v k2 : String) (h : k2 ≠ k) :
    lookupParam (setParam ps k v) k2 = lookupParam ps k2 := by
  induction ps with
  | nil => simp [setParam, lookupParam, List.find?, Ne.symm h]
  | cons a ps ih =>
    obtain ⟨k1, v1⟩ := a
    by_cases h1 : k1 = k
    · rw [show setParam ((k1, v1) :: ps) k v = (k, v) :: ps.filter (fun p => p.1 ≠ k) by
        simp [setParam, h1]]
      unfold lookupParam
      rw [List.find?_cons_of_neg _ (by simp [Ne.symm h])]
      rw [List.find?_cons_of_neg _ (by simp [h1, Ne.symm h])]
      exact lookupParam_dropKey_ne ps k k2 h
    · rw [show setParam ((k1, v1) :: ps) k v = (k1, v1) :: setParam ps k v by
        simp [setParam, h1]]
      by_cases h2 : k1 = k2
      · unfold lookupParam
        rw [List.find?_cons_of_pos _ (by simp [h2]), List.find?_cons_of_pos _ (by simp [h2])]
      · unfold lookupParam
        rw [List.find?_cons_of_neg _ (by simp [h2]), List.find?_cons_of_neg _ (by simp [h2])]
        exact ih

theorem lookupParam_filter_append (A B : List (String × String)) (k v : String)
    (hA : ∀ p ∈ A, p.1 ≠ k) (hv : v ≠ "") :
    lookupParam ((A ++ (k, v) :: B).filter fun p => p.2 ≠ "") k = some v := by
  induction A with
  | nil =>
    rw [List.nil_append, List.filter_cons_of_pos (by simpa using hv)]
    unfold lookupParam
    rw [List.find?_cons_of_pos _ (by simp)]
    rfl
  | cons a A ih =>
    have ha := hA a (by simp)
    have ih2 := ih (fun p hp => hA p (by simp [hp]))
    rw [List.cons_append]
    by_cases h2 : a.2 ≠ ""
    · rw [List.filter_cons_of_pos (by simpa using h2)]
      unfold lookupParam
      rw [List.find?_cons_of_neg _ (by simpa using ha)]
      exact ih2
    · rw [List.filter_cons_of_neg (by simpa using h2)]
      exact ih2

theorem dropPage_filter_indep (l1 l2 : List (String × String)) (v w : String) :
    dropParam ((l1 ++ ("page", v) :: l2).filter fun p => p.2 ≠ "") "page" =
      dropParam ((l1 ++ ("page", w) :: l2).filter fun p => p.2 ≠ "") "page" := by
  induction l1 with
  | nil =>
    by_cases hv : v = "" <;> by_cases hw : w = "" <;>
      simp [dropParam, List.filter_cons, hv, hw]
  | cons a l1 ih =>
    by_cases ha : a.2 = "" <;>
      simp only [List.cons_append, List.filter_cons, ha, decide_not, decide_False,
        Bool.not_false, Bool.not_true, if_true, if_false, ite_not] <;>
      simp only [dropParam, List.filter_cons] at ih ⊢ <;>
      simp [ih]

/-! ## Claim C8 -/

/-- C8 counterexample: the V2 successor-URL construction does not preserve
the path.  For the very first LIST request — built on `/jobs/search`
(`main.js` 753-764) — the constructed next-page URL lives on
`/ajax/jobs/search`, so "same path" fails. -/
theorem nextPage_url_cex :
    (nextUrlV2 { path := "/jobs/search", params := [("page", "1")] } 2).path ≠
      ({ path := "/jobs/search", params := [("page", "1")] } : Url).path := by
  decide

/-- C8 amended: next-page construction preserves every query parameter other
than `page` and overwrites `page` with the successor number, but not always
the path.  (1) V1's `buildApiRequestUrl` (`main.js` 129-153) produces, for
any two page numbers over the same search configuration, identical parameter
lists once `page` is removed, the same `/jobs/search` path, and `page` set to
the requested number.  (2) The V2 construction (`main.js` 705-717) leaves the
value of every non-`page` key unchanged, (3) sets `page` to the successor
number — and rewrites the path to the fixed `/ajax/jobs/search`. -/
theorem nextPage_url_amended :
    (∀ sc : SearchConfig, ∀ p q : Nat,
      dropParam (buildApiRequestUrl sc p).params "page" =
          dropParam (buildApiRequestUrl sc q).params "page" ∧
        (buildApiRequestUrl sc p).path = "/jobs/search" ∧
        lookupParam (buildApiRequestUrl sc p).params "page" = some (toString p)) ∧
    (∀ u : Url, ∀ n : Nat, ∀ k : String, k ≠ "page" →
      lookupParam (nextUrlV2 u n).params k = lookupParam u.params k) ∧
    (∀ u : Url, ∀ n : Nat,
      lookupParam (nextUrlV2 u n).params "page" = some (toString n) ∧
        (nextUrlV2 u n).path = "/ajax/jobs/search") := by
  refine ⟨?_, ?_, ?_⟩
  · intro sc p q
    refine ⟨?_, rfl, ?_⟩
    · have h := dropPage_filter_indep
        [("search_keyword", sc.search_keyword), ("city", sc.city), ("country", sc.country),
          ("category", sc.category), ("employment_type", sc.employment_type),
          ("industry", sc.industry), ("seniority", sc.seniority),
          ("has_external_application", sc.has_external_application)]
        (match sc.posted_date with
          | some d => [("filters[posted_date]", toString d)]
          | none => [])
        (toString p) (toString q)
      simpa [buildApiRequestUrl] using h
    · show lookupParam (buildApiRequestUrl sc p).params "page" = some (toString p)
      unfold buildApiRequestUrl
      simp only []
      rw [show [("search_keyword", sc.search_keyword), ("city", sc.city),
            ("country", sc.country), ("category", sc.category),
            ("employment_type", sc.employment_type), ("industry", sc.industry),
            ("seniority", sc.seniority),
            ("has_external_application", sc.has_external_application),
            ("page", toString p)] ++
            (match sc.posted_date with
             | some d => [("filters[posted_date]", toString d)]
             | none => []) =
          [("search_keyword", sc.search_keyword), ("city", sc.city),
            ("country", sc.country), ("category", sc.category),
            ("employment_type", sc.employment_type), ("industry", sc.industry),
            ("seniority", sc.seniority),
            ("has_external_application", sc.has_external_application)] ++
            ("page", toString p) ::
            (match sc.posted_date with
             | some d => [("filters[posted_date]", toString d)]
             | none => []) by simp]
      refine lookupParam_filter_append _ _ _ _ ?_ (natToString_ne_empty p)
      intro x hx
      simp only [List.mem_cons, List.not_mem_nil, or_false] at hx
      rcases hx with rfl | rfl | rfl | rfl | rfl | rfl | rfl | rfl <;> simp
  · intro u n k h
    exact setParam_lookup_ne u.params "page" (toString n) k h
  · intro u n
    exact ⟨setParam_lookup_self u.params "page" (toString n), rfl⟩

/-- The concrete current LIST URL of the C8 witness. -/
def urlC8 : Url :=
  { path := "/jobs/search", params := [("search_keyword", "nurse"), ("page", "1")] }

/-- Witness for the amended C8 at a concrete current URL: every non-`page`
filter (here `search_keyword`) survives, `page` becomes `2`, and the path is
rewritten. -/
theorem nextPage_url_amended_witness :
    ("search_keyword" ≠ "page" ∧
      lookupParam (nextUrlV2 urlC8 2).params "search_keyword" =
        lookupParam urlC8.params "search_keyword") ∧
    lookupParam (nextUrlV2 urlC8 2).params "page" = some (toString 2) := by
  refine ⟨⟨by decide, ?_⟩, ?_⟩
  · exact nextPage_url_amended.2.1 urlC8 2 "search_keyword" (by decide)
  · exact (nextPage_url_amended.2.2 urlC8 2).1

/-! ## Claim C9 -/

/-- C9 counterexample: a configured limit of `0` is below 1, so the claim
demands a fatal configuration error — but `maxJobs && maxJobs < 1` is falsy
for `0` in JS, so validation passes and the run proceeds to crawl. -/
theorem config_validation_cex :
    validateInput (some 0) (some 0) = Except.ok () ∧
    (runActor (some 0) (some 0) (fun _ => {}) 1).isOk = true :=
  ⟨rfl, rfl⟩

/-- C9 amended: validation fails exactly on a provided limit that is
*negative* (a nonzero number below 1); a limit of `0` is falsy and passes,
after which every `maxJobs && ...` guard likewise treats it as "no limit".
When validation fails it does so before the crawler is built, so the run
performs no LIST request at all (`runActor` propagates the error without
touching the crawl loop); absent or `≥ 1` limits raise no error and crawling
proceeds. -/
theorem config_validation_amended :
    (∀ mj mp : Option Int, validateInput mj mp = .ok () ↔
      (¬∃ n, mj = some n ∧ n < 0) ∧ (¬∃ n, mp = some n ∧ n < 0)) ∧
    (∀ mj mp : Option Int, ∀ e oracle fuel, validateInput mj mp = .error e →
      runActor mj mp oracle fuel = .error e) := by
  constructor
  · intro mj mp
    cases mj <;> cases mp <;>
      · simp only [validateInput, jsTruthyI]
        split_ifs <;> simp_all <;> omega
  · intro mj mp e oracle fuel h
    unfold runActor
    rw [h]

/-- Witness for the amended C9: `maxJobs = -3` aborts before any crawling,
while `maxJobs = 5, maxPages = 2` passes validation. -/
theorem config_validation_amended_witness :
    (validateInput (some (-3)) none = .error "maxJobs must be >= 1" ∧
      runActor (some (-3)) none (fun _ => {}) 5 = .error "maxJobs must be >= 1") ∧
    validateInput (some 5) (some 2) = .ok () := by
  refine ⟨⟨rfl, ?_⟩, ?_⟩
  · exact config_validation_amended.2 (some (-3)) none "maxJobs must be >= 1"
      (fun _ => {}) 5 rfl
  · refine (config_validation_amended.1 (some 5) (some 2)).mpr ⟨?_, ?_⟩ <;> simp

/-! ## Claim C10 -/

/-- Does an emission eventually produce a dataset record, given which DETAIL
requests succeed?  Direct pushes always do; a DETAIL enqueue does iff its
request eventually succeeds. -/
def eventuallyPushed (succ : String → Bool) (e : Emission) : Bool :=
  match e.kind with
  | .record => true
  | .detailRequest => succ e.jobId

theorem handleDetailV1_length (jobData : Record) (d : DetailDoc) :
    (handleDetailV1 jobData d).length = 1 := by
  unfold handleDetailV1
  cases cleanDescriptionV1 d <;> simp

theorem detailPhase_length (succ : String → Bool) (docOf : String → DetailDoc) :
    ∀ ems : List Emission,
      (detailPhase succ docOf ems).length = ems.countP (eventuallyPushed succ) := by
  intro ems
  induction ems with
  | nil => simp [detailPhase]
  | cons e rest ih =>
    unfold detailPhase
    rw [List.countP_cons]
    cases hk : e.kind with
    | record => simp [hk, eventuallyPushed, ih]
    | detailRequest =>
      by_cases hs : succ e.jobId
      · simp [hk, hs, eventuallyPushed, ih, handleDetailV1_length]
        omega
      · simp [hk, hs, eventuallyPushed, ih, failedRequestHandlerV1]

/-- The concrete accepted-job record of the C10 witness. -/
def recC10 : Record :=
  { title := "T", company := "C", location := "L", date_posted := .str "Not specified",
    url := some "https://www.gulftalent.com/jobs/t-9" }

/-- C10: (1) every acceptance in the V1 loop increments `jobsScraped` by
exactly the number of emissions it makes, so at the end of LIST handling
`jobsScraped` already counts every enqueued DETAIL request, before any detail
page was fetched; (2) with `collectDetails` on, every emission is either a
DETAIL enqueue or a direct push of a job with a falsy link; (3) the records
eventually pushed to the dataset are exactly the direct pushes plus the
DETAIL requests that did not permanently fail (`failedRequestHandler` pushes
nothing), hence (4) never more than `jobsScraped` grew by; and (5) with a
permanently failing DETAIL request the pushed count is strictly smaller. -/
theorem jobsScraped_counts_enqueues_not_pushes :
    (∀ cfg s jobs, (processJobs1 cfg s jobs).1.jobsScraped =
      s.jobsScraped + (processJobs1 cfg s jobs).2.length) ∧
    (∀ cfg s j e, cfg.collectDetails = true → e ∈ (acceptJob cfg s j).2 →
      e.kind = .detailRequest ∨ jsTruthyS e.data.url = false) ∧
    (∀ succ docOf ems, (detailPhase succ docOf ems).length =
      ems.countP (eventuallyPushed succ)) ∧
    (∀ succ docOf ems, (detailPhase succ docOf ems).length ≤ ems.length) ∧
    (∃ (succ : String → Bool) (docOf : String → DetailDoc) (ems : List Emission),
      (detailPhase succ docOf ems).length < ems.length) := by
  refine ⟨fun cfg jobs s => processJobs1_jobsScraped cfg s jobs, ?_, detailPhase_length,
    fun succ docOf ems => ?_, ?_⟩
  · intro cfg s j e hcd he
    cases hid : j.id with
    | none => simp [acceptJob, hid] at he
    | some id =>
      by_cases h : id = "" ∨ id ∈ s.seenJobIds
      · simp [acceptJob, hid, h] at he
      · simp [acceptJob, hid, h] at he
        by_cases hl : jsTruthyS j.link
        · left
          rw [he]
          simp [hcd, hl]
        · right
          rw [he]
          simp [hcd, hl, mkJobDataV1]
  · rw [detailPhase_length]
    exact List.countP_le_length _
  · exact ⟨fun _ => false, fun _ => {},
      [⟨.detailRequest, "9", recC10⟩], by decide⟩

/-- The concrete accepted job of the C10 witness. -/
def jobC10 : Job :=
  { id := some "9", title := some "T", company_name := some "C", location := some "L",
    link := some "https://www.gulftalent.com/jobs/t-9" }

/-- Witness for C10 at a concrete accepted job with `collectDetails` on: its
single emission is a DETAIL enqueue, made while `jobsScraped` was bumped. -/
theorem jobsScraped_counts_enqueues_not_pushes_witness :
    (({} : Config).collectDetails = true ∧
      (⟨.detailRequest, "9", mkJobDataV1 jobC10⟩ : Emission) ∈ (acceptJob {} {} jobC10).2) ∧
    ((⟨.detailRequest, "9", mkJobDataV1 jobC10⟩ : Emission).kind = .detailRequest ∨
      jsTruthyS (mkJobDataV1 jobC10).url = false) ∧
    (acceptJob {} {} jobC10).1.jobsScraped = 1 := by
  refine ⟨⟨rfl, by decide⟩, ?_, by decide⟩
  exact jobsScraped_counts_enqueues_not_pushes.2.1 {} {} jobC10
    ⟨.detailRequest, "9", mkJobDataV1 jobC10⟩ rfl (by decide)

end GT
